import Mathlib

/-!
# Renesas serial communication interface (hw/char/renesas_sci.c)

A shallow embedding of the SCI / SCIF device model: the register file, the
per-character timing, the transmit and receive paths and the four interrupt
outputs.  Machine integers are natural numbers or integers with explicit
truncation where the C code stores into a narrower type.
-/

set_option linter.unusedVariables false

namespace RenesasSCI

/-! ## Bit-field helpers -/

/-- Modelled from the spec: the bit-field accessors come from
hw/registerfields.h and qemu/bitops.h, which are not among the sources; a
field is a fixed shift and width inside a packed register. -/
structure Field where
  shift : Nat
  length : Nat
  deriving DecidableEq, Repr

/-- Modelled from the spec: extract32 of qemu/bitops.h (not among the
sources), the `length` bits of `value` that start at bit `start`. -/
def extract32 (value start length : Nat) : Nat :=
  value / 2 ^ start % 2 ^ length

/-- Modelled from the spec: deposit32 of qemu/bitops.h (not among the
sources), `value` with the `length` bits at `start` replaced by the low bits
of `fieldval`, as a 32-bit result. -/
def deposit32 (value start length fieldval : Nat) : Nat :=
  (value - extract32 value start length * 2 ^ start
    + fieldval % 2 ^ length * 2 ^ start) % 2 ^ 32

/-- Modelled from the spec: FIELD_EX8 of hw/registerfields.h (not among the
sources); the storage is first converted to uint8_t. -/
def FIELD_EX8 (storage : Nat) (f : Field) : Nat :=
  extract32 (storage % 2 ^ 8) f.shift f.length

/-- Modelled from the spec: FIELD_EX16 of hw/registerfields.h (not among the
sources); the storage is first converted to uint16_t. -/
def FIELD_EX16 (storage : Nat) (f : Field) : Nat :=
  extract32 (storage % 2 ^ 16) f.shift f.length

/-- Modelled from the spec: FIELD_DP8 of hw/registerfields.h (not among the
sources); the deposit is computed on 32 bits and returned as uint8_t. -/
def FIELD_DP8 (storage : Nat) (f : Field) (val : Nat) : Nat :=
  deposit32 storage f.shift f.length val % 2 ^ 8

/-- Modelled from the spec: FIELD_DP16 of hw/registerfields.h (not among the
sources); the deposit is computed on 32 bits and returned as uint16_t. -/
def FIELD_DP16 (storage : Nat) (f : Field) (val : Nat) : Nat :=
  deposit32 storage f.shift f.length val % 2 ^ 16

/-- Modelled from the spec: extract32 the way qemu/bitops.h (not among the
sources) writes it, a shift and a mask on a 32-bit value:
(value >> start) & (~0U >> (32 - length)). -/
def extract32_mask (value start length : Nat) : Nat :=
  ((value % 2 ^ 32) >>> start) &&& ((2 ^ 32 - 1) >>> (32 - length))

/-- Modelled from the spec: deposit32 the way qemu/bitops.h (not among the
sources) writes it, with mask = (~0U >> (32 - length)) << start:
(value & ~mask) | ((fieldval << start) & mask), on 32-bit values. -/
def deposit32_mask (value start length fieldval : Nat) : Nat :=
  let mask := ((2 ^ 32 - 1) >>> (32 - length)) <<< start
  ((value % 2 ^ 32) &&& (2 ^ 32 - 1 - mask)) ||| (((fieldval <<< start) % 2 ^ 32) &&& mask)

/-! ## Register map (REG8 / REG16 / FIELD lines of renesas_sci.c) -/

def A_SMR : Nat := 0
def SMR_CKS : Field := ⟨0, 2⟩
def SMR_MP : Field := ⟨2, 1⟩
def SMR_STOP : Field := ⟨3, 1⟩
def SMR_PM : Field := ⟨4, 1⟩
def SMR_PE : Field := ⟨5, 1⟩
def SMR_CHR : Field := ⟨6, 1⟩
def SMR_CM : Field := ⟨7, 1⟩
def A_BRR : Nat := 1
def A_SCR : Nat := 2
def SCR_CKE : Field := ⟨0, 2⟩
def SCR_TEIE : Field := ⟨2, 1⟩
def SCR_MPIE : Field := ⟨3, 1⟩
def SCR_RE : Field := ⟨4, 1⟩
def SCR_TE : Field := ⟨5, 1⟩
def SCR_RIE : Field := ⟨6, 1⟩
def SCR_TIE : Field := ⟨7, 1⟩
def A_TDR : Nat := 3
def A_SSR : Nat := 4
def SSR_MPBT : Field := ⟨0, 1⟩
def SSR_MPB : Field := ⟨1, 1⟩
def SSR_TEND : Field := ⟨2, 1⟩
def SSR_ERR : Field := ⟨3, 3⟩
def SSR_PER : Field := ⟨3, 1⟩
def SSR_FER : Field := ⟨4, 1⟩
def SSR_ORER : Field := ⟨5, 1⟩
def SSR_RDRF : Field := ⟨6, 1⟩
def SSR_TDRE : Field := ⟨7, 1⟩
def A_RDR : Nat := 5
def A_SCMR : Nat := 6
def A_SEMR : Nat := 7

def A_SCSMR : Nat := 0
def A_SCSCR : Nat := 2
def SCSCR_TOIE : Field := ⟨2, 1⟩
def SCSCR_REIE : Field := ⟨3, 1⟩
def SCSCR_TEIE : Field := ⟨11, 1⟩
def A_SCFSR : Nat := 4
def SCFSR_DR : Field := ⟨0, 1⟩
def SCFSR_RDF : Field := ⟨1, 1⟩
def SCFSR_PER : Field := ⟨2, 1⟩
def SCFSR_FER : Field := ⟨3, 1⟩
def SCFSR_BRK : Field := ⟨4, 1⟩
def SCFSR_TDFE : Field := ⟨5, 1⟩
def SCFSR_TEND : Field := ⟨6, 1⟩
def SCFSR_ER : Field := ⟨7, 1⟩
def SCFSR_FERC : Field := ⟨8, 4⟩
def SCFSR_PERC : Field := ⟨12, 4⟩
def A_SCFCR : Nat := 6
def A_SCFDR : Nat := 7
def SCFDR_R : Field := ⟨0, 5⟩
def SCFDR_T : Field := ⟨8, 5⟩
def A_SCSPTR : Nat := 8
def A_SCLSR : Nat := 9
def SCLSR_ORER : Field := ⟨0, 1⟩
def SCLSR_TO : Field := ⟨2, 1⟩
def A_DL : Nat := 12
def A_CKS : Nat := 13

/-- Modelled from the spec: the constant UINT64_MAX of the C library headers
(not among the sources), 64 bits all set. -/
def UINT64_MAX : Nat := 2 ^ 64 - 1

/-- Modelled from the spec: the constant NANOSECONDS_PER_SECOND of
qemu/timer.h (not among the sources), the 1e9 of the timing formula. -/
def NANOSECONDS_PER_SECOND : Int := 1000000000

/-- Conversion of a mathematical integer to int64_t (two's complement). -/
def wrap_int64 (x : Int) : Int := (x + 2 ^ 63) % 2 ^ 64 - 2 ^ 63

/-- Conversion of a mathematical integer to int (32 bits, two's complement). -/
def wrap_int32 (x : Int) : Int := (x + 2 ^ 31) % 2 ^ 32 - 2 ^ 31

/-! ## Device state -/

/-- The interrupt outputs of one controller (the enum of renesas_sci.h). -/
inductive Irq
  | ERI
  | RXI
  | TXI
  | TEI
  deriving DecidableEq, Repr

/-- What the device does to its collaborators: a level change on an interrupt
output, a byte handed to the character backend, a (re)arming of the timer. -/
inductive Effect
  | set_irq (n : Irq) (level : Bool)
  | chr_write (byte : Nat)
  | timer_mod (expire : Int)
  deriving DecidableEq, Repr

/-- RSCIState of renesas_sci.h.  `smr` .. `read_ssr` are the uint16_t / uint8_t
registers, `trtime` and `rx_next` are int64_t nanoseconds, `input_freq` is the
uint64_t property.  The collaborators are kept as data: `timer` is the pending
deadline of the QEMUTimer, `chr_connected` tells whether the CharBackend has a
backend, `eri` .. `tei` are the current levels of the four outputs and
`effects` is the history of everything done to the collaborators, oldest
first. -/
structure RSCIState where
  smr : Nat
  brr : Nat
  scr : Nat
  tdr : Nat
  ssr : Nat
  rdr : Nat
  scmr : Nat
  semr : Nat
  read_ssr : Nat
  trtime : Int
  rx_next : Int
  input_freq : Nat
  timer : Option Int
  chr_connected : Bool
  eri : Bool
  rxi : Bool
  txi : Bool
  tei : Bool
  effects : List Effect
  deriving DecidableEq, Repr

/-- Modelled from the spec: qemu_set_irq of hw/irq.h (not among the sources)
on one of the four outputs; the output takes the level and the change is
recorded. -/
def qemu_set_irq (sci : RSCIState) (n : Irq) (level : Bool) : RSCIState :=
  let sci := { sci with effects := sci.effects ++ [Effect.set_irq n level] }
  match n with
  | Irq.ERI => { sci with eri := level }
  | Irq.RXI => { sci with rxi := level }
  | Irq.TXI => { sci with txi := level }
  | Irq.TEI => { sci with tei := level }

/-- Modelled from the spec: qemu_irq_pulse of hw/irq.h (not among the
sources), an edge: the output is raised, then lowered. -/
def qemu_irq_pulse (sci : RSCIState) (n : Irq) : RSCIState :=
  qemu_set_irq (qemu_set_irq sci n true) n false

/-- Modelled from the spec: timer_mod of qemu/timer.h (not among the
sources); the timer is single-shot, a new deadline replaces the pending
one. -/
def timer_mod (sci : RSCIState) (expire : Int) : RSCIState :=
  { sci with timer := some expire,
             effects := sci.effects ++ [Effect.timer_mod expire] }

/-- Modelled from the spec: qemu_chr_fe_write_all of chardev/char-fe.h (not
among the sources) for one byte; the byte is handed to the backend. -/
def qemu_chr_fe_write_all (sci : RSCIState) (byte : Nat) : RSCIState :=
  { sci with effects := sci.effects ++ [Effect.chr_write byte] }

/-! ## The device functions -/

/-- The function can_receive; `now` is qemu_clock_get_ns(QEMU_CLOCK_VIRTUAL). -/
def can_receive (sci : RSCIState) (now : Int) : Nat :=
  if sci.rx_next > now then 0 else FIELD_EX8 sci.scr SCR_RE

/-- The function receive; `buf` holds the delivered bytes and `size` is their
number. -/
def receive (sci : RSCIState) (now : Int) (buf : List Nat) (size : Int) : RSCIState :=
  let sci := { sci with rx_next := wrap_int64 (now + sci.trtime) }
  if FIELD_EX16 sci.ssr SCFSR_DR ≠ 0 ∨ size > 1 then
    let sci := { sci with ssr := FIELD_DP16 sci.ssr SCLSR_ORER 1 }
    if FIELD_EX8 sci.scr SCR_RIE ≠ 0 then qemu_set_irq sci Irq.ERI true else sci
  else
    let sci := { sci with rdr := buf.getD 0 0 % 2 ^ 8 }
    let sci := { sci with ssr := FIELD_DP16 sci.ssr SCFSR_DR 1 }
    if FIELD_EX8 sci.scr SCR_RIE ≠ 0 then qemu_irq_pulse sci Irq.RXI else sci

/-- The function sci_send_byte. -/
def sci_send_byte (sci : RSCIState) (now : Int) : RSCIState :=
  let sci := if sci.chr_connected then qemu_chr_fe_write_all sci sci.tdr else sci
  let sci := timer_mod sci (wrap_int64 (now + sci.trtime))
  let sci := { sci with ssr := FIELD_DP8 sci.ssr SSR_TEND 0 }
  let sci := { sci with ssr := FIELD_DP8 sci.ssr SSR_TDRE 1 }
  let sci := qemu_set_irq sci Irq.TEI false
  if FIELD_EX8 sci.scr SCR_TIE ≠ 0 then qemu_irq_pulse sci Irq.TXI else sci

/-- The function sci_txend, the timer callback of the narrow variant. -/
def sci_txend (sci : RSCIState) (now : Int) : RSCIState :=
  if FIELD_EX8 sci.ssr SSR_TDRE = 0 then sci_send_byte sci now
  else
    let sci := { sci with ssr := FIELD_DP8 sci.ssr SSR_TEND 1 }
    if FIELD_EX8 sci.scr SCR_TEIE ≠ 0 then qemu_set_irq sci Irq.TEI true else sci

/-- The function scif_send_byte. -/
def scif_send_byte (sci : RSCIState) (now : Int) : RSCIState :=
  let sci := if sci.chr_connected then qemu_chr_fe_write_all sci sci.tdr else sci
  let sci := timer_mod sci (wrap_int64 (now + sci.trtime))
  let sci := { sci with ssr := FIELD_DP16 sci.ssr SCFSR_TEND 0 }
  let sci := { sci with ssr := FIELD_DP16 sci.ssr SCFSR_TDFE 1 }
  let sci := qemu_set_irq sci Irq.TEI false
  if FIELD_EX8 sci.scr SCR_TIE ≠ 0 then qemu_irq_pulse sci Irq.TXI else sci

/-- The function scif_txend, the timer callback of the word-addressed
variant. -/
def scif_txend (sci : RSCIState) (now : Int) : RSCIState :=
  if FIELD_EX16 sci.ssr SCFSR_TDFE = 0 then scif_send_byte sci now
  else
    let sci := { sci with ssr := FIELD_DP16 sci.ssr SCFSR_TEND 1 }
    if FIELD_EX16 sci.scr SCSCR_TEIE ≠ 0 then qemu_set_irq sci Irq.TEI true else sci

/-- The function update_trtime.  The running value is an int64_t; the last
step divides as uint64_t, and a zero `input_freq` is a division by zero: no
result. -/
def update_trtime (sci : RSCIState) : Option RSCIState :=
  let t : Int := wrap_int64 (8 - (FIELD_EX8 sci.smr SMR_CHR : Int))
  let t : Int := wrap_int64 (t + (FIELD_EX8 sci.smr SMR_PE : Int))
  let t : Int := wrap_int64 (t + wrap_int32 ((FIELD_EX8 sci.smr SMR_STOP : Int) + 1))
  let t : Int := wrap_int64 (t * wrap_int32 (32 * (sci.brr : Int)))
  let t : Int := wrap_int64 (t * wrap_int32 ((1 <<< (2 * FIELD_EX8 sci.smr SMR_CKS) : Nat) : Int))
  let t : Int := wrap_int64 (t * NANOSECONDS_PER_SECOND)
  if sci.input_freq = 0 then none
  else some { sci with trtime := wrap_int64 (t % 2 ^ 64 / (sci.input_freq : Int)) }

/-- The function sci_is_tr_enabled. -/
def sci_is_tr_enabled (sci : RSCIState) : Bool :=
  FIELD_EX8 sci.scr SCR_TE ≠ 0 || FIELD_EX8 sci.scr SCR_RE ≠ 0

/-- The function sci_write, the register write of the narrow variant; `none`
is the division by zero of update_trtime. -/
def sci_write (sci : RSCIState) (offset val size : Nat) : Option RSCIState :=
  if offset = A_SMR then
    if !sci_is_tr_enabled sci then update_trtime { sci with smr := val % 2 ^ 16 }
    else some sci
  else if offset = A_BRR then
    if !sci_is_tr_enabled sci then update_trtime { sci with brr := val % 2 ^ 16 }
    else some sci
  else if offset = A_RDR then some sci
  else if offset = A_SCMR then some { sci with scmr := val % 2 ^ 16 }
  else if offset = A_SEMR then some { sci with semr := val % 2 ^ 16 }
  else some sci

/-- The function sci_read, the register read of the narrow variant: the value
read and the state after the read. -/
def sci_read (sci : RSCIState) (offset size : Nat) : Nat × RSCIState :=
  if offset = A_SMR then (sci.smr, sci)
  else if offset = A_BRR then (sci.brr, sci)
  else if offset = A_SCR then (sci.scr, sci)
  else if offset = A_TDR then (sci.tdr, sci)
  else if offset = A_SSR then (sci.ssr, { sci with read_ssr := sci.ssr })
  else if offset = A_SCMR then (sci.scmr, sci)
  else if offset = A_SEMR then (sci.semr, sci)
  else (UINT64_MAX, sci)

/-- The function scif_write, the register write of the word-addressed
variant. -/
def scif_write (sci : RSCIState) (now : Int) (offset val size : Nat) : Option RSCIState :=
  let offset := offset >>> 2
  if offset = A_SCR then
    let sci := { sci with scr := val % 2 ^ 16 }
    let sci :=
      if FIELD_EX8 sci.scr SCR_TE ≠ 0 then
        let sci := { sci with ssr := FIELD_DP8 sci.ssr SCFSR_TDFE 1 }
        let sci := { sci with ssr := FIELD_DP8 sci.ssr SCFSR_TEND 1 }
        if FIELD_EX8 sci.scr SCR_TIE ≠ 0 then qemu_irq_pulse sci Irq.TXI else sci
      else sci
    let sci := if FIELD_EX8 sci.scr SCR_TEIE = 0 then qemu_set_irq sci Irq.TEI false else sci
    let sci := if FIELD_EX8 sci.scr SCR_RIE = 0 then qemu_set_irq sci Irq.ERI false else sci
    some sci
  else if offset = A_TDR then
    let sci := { sci with tdr := val % 2 ^ 8 }
    if FIELD_EX8 sci.ssr SCFSR_TEND ≠ 0 then some (scif_send_byte sci now)
    else some { sci with ssr := FIELD_DP8 sci.ssr SCFSR_TDFE 0 }
  else if offset = A_SSR then
    if FIELD_EX8 sci.read_ssr SCFSR_ER ≠ 0 ∧ FIELD_EX8 sci.ssr SCFSR_ER = 0 then
      some (qemu_set_irq sci Irq.ERI false)
    else some sci
  else sci_write sci offset val size

/-- The function scif_read, the register read of the word-addressed variant. -/
def scif_read (sci : RSCIState) (offset size : Nat) : Nat × RSCIState :=
  let offset := offset >>> 2
  if offset = A_RDR then
    (sci.rdr, { sci with ssr := FIELD_DP16 sci.ssr SCFSR_DR 0 })
  else if offset = A_SCFDR then
    ((if FIELD_EX16 sci.ssr SCFSR_DR ≠ 0 then 1 else 0), sci)
  else sci_read sci offset size

/-- The function rsci_reset; `now` is the virtual clock at reset. -/
def rsci_reset (sci : RSCIState) (now : Int) : RSCIState :=
  { sci with smr := 0x00, scr := 0x00, brr := 0xff, tdr := 0xff, rdr := 0x00,
             ssr := 0x84, scmr := 0x00, semr := 0x00, rx_next := now }

/-- Modelled from the spec: the timer core is not among the sources; the
single-shot timer of an instance of the word-addressed variant expires once
its deadline is reached, is then no longer pending, and its callback
scif_txend runs. -/
def scif_timer_expire (sci : RSCIState) (now : Int) : RSCIState :=
  match sci.timer with
  | some t => if t ≤ now then scif_txend { sci with timer := none } now else sci
  | none => sci

/-- Modelled from the spec: the timer core is not among the sources; the
single-shot timer of an instance of the narrow variant expires once its
deadline is reached, is then no longer pending, and its callback sci_txend
runs. -/
def sci_timer_expire (sci : RSCIState) (now : Int) : RSCIState :=
  match sci.timer with
  | some t => if t ≤ now then sci_txend { sci with timer := none } now else sci
  | none => sci

/-- Modelled from the spec: QEMUChrEvent of chardev/char.h (not among the
sources), the events a transport can signal to its front end. -/
inductive QEMUChrEvent
  | CHR_EVENT_BREAK
  | CHR_EVENT_OPENED
  | CHR_EVENT_MUX_IN
  | CHR_EVENT_MUX_OUT
  | CHR_EVENT_CLOSED
  deriving DecidableEq, Repr

/-- The function sci_event, installed for both variants. -/
def sci_event (sci : RSCIState) (event : QEMUChrEvent) : RSCIState :=
  if event = QEMUChrEvent.CHR_EVENT_BREAK then
    let sci := { sci with ssr := FIELD_DP8 sci.ssr SCFSR_FER 1 }
    if FIELD_EX8 sci.scr SCR_RIE ≠ 0 then qemu_set_irq sci Irq.ERI true else sci
  else sci

/-- What a call of rsci_realize leaves behind: the error object behind the
errp out-parameter (none when no error is reported to the caller), whether
qemu_chr_fe_set_handlers installed can_receive, receive and sci_event, and
whether a diagnostic was logged. -/
structure RealizeOutcome where
  errp : Option String
  handlers_installed : Bool
  logged : Bool
  deriving DecidableEq, Repr

/-- The function rsci_realize; `errp` is the error object the caller passes
in, none for a caller that has seen no error yet. -/
def rsci_realize (sci : RSCIState) (errp : Option String) : RealizeOutcome :=
  if sci.input_freq = 0 then
    { errp := errp, handlers_installed := false, logged := true }
  else
    { errp := errp, handlers_installed := true, logged := false }

/-- A state for trying the functions out: everything zero, lines low, no
pending timer, a connected backend and a 64 MHz input clock. -/
def demo : RSCIState :=
  { smr := 0, brr := 0, scr := 0, tdr := 0, ssr := 0, rdr := 0, scmr := 0,
    semr := 0, read_ssr := 0, trtime := 0, rx_next := 0, input_freq := 64000000,
    timer := none, chr_connected := true, eri := false, rxi := false,
    txi := false, tei := false, effects := [] }

/-! ## The timing formula in the spec's words -/

/-- The number of bits per character in the spec's words: the data bits (8
minus the char-length bit, bit 6 of the mode), the parity-enable bit (bit 5),
the stop-bits field (bit 3) and one start bit. -/
def bits_per_char (mode : Nat) : Nat :=
  (8 - mode / 2 ^ 6 % 2) + mode / 2 ^ 5 % 2 + mode / 2 ^ 3 % 2 + 1

/-- The clock-select field in the spec's words: the low two bits of the mode. -/
def clock_select (mode : Nat) : Nat := mode % 4

/-- The spec's cycle count of one character, over the naturals. -/
def char_cycles (mode divisor : Nat) : Nat :=
  bits_per_char mode * 32 * divisor * 2 ^ (2 * clock_select mode)

/-- The spec's char_time_ns: a floor division over the naturals. -/
def char_time_spec (mode divisor input_freq : Nat) : Nat :=
  char_cycles mode divisor * 10 ^ 9 / input_freq

/-! ## States and register sets used in the statements -/

/-- A state with only receive-interrupt-enable (bit 6) set in the control
register, an unread byte in the holding register and all lines low. -/
def overrun_rie_only : RSCIState := { demo with scr := 0x40, ssr := 0x01 }

/-- An idle transmitter of the word-addressed variant with
transmit-interrupt-enable and transmit-enable set (control 0xa0), the status
word 0x60 (transmit-empty and transmit-end) and a character time of 5000 ns. -/
def tx_idle_tie : RSCIState := { demo with scr := 0xa0, ssr := 0x60, trtime := 5000 }

/-- The state after the byte 0x41 is written to the transmit-data register of
`tx_idle_tie` at time 0. -/
def tx_idle_tie_written : RSCIState := (scif_write tx_idle_tie 0 12 0x41 2).getD tx_idle_tie

/-- A run of the word-addressed variant from reset: receive-interrupt-enable
is set (control 0x40), the transport signals a break, the guest reads the
status register (index 4) and then writes it with every flag bit zero. -/
def break_then_ack : Option RSCIState :=
  (scif_write (rsci_reset demo 0) 0 8 0x40 2).bind fun s1 =>
    scif_write (scif_read (sci_event s1 QEMUChrEvent.CHR_EVENT_BREAK) 16 2).2 0 16 0 2

/-- A run of the word-addressed variant from reset: the control register is
written with 0x0824 (bit 11, transmit-enable and bit 2), a byte is written to
the transmit-data register, the timer fires, and the control register is
written with 0x0004, which clears bit 11 and keeps bit 2. -/
def tei_after_enable_cleared : Option RSCIState :=
  (scif_write (rsci_reset demo 0) 0 8 0x0824 2).bind fun s1 =>
    (scif_write s1 0 12 0x41 2).bind fun s2 =>
      scif_write (scif_timer_expire s2 0) 0 8 0x0004 2

/-- The register indices at which sci_read finds a register. -/
def sci_read_regs : List Nat := [A_SMR, A_BRR, A_SCR, A_TDR, A_SSR, A_SCMR, A_SEMR]

/-- The register indices at which sci_write stores; the receive-data register
is not among them, a write to it is only diagnosed. -/
def sci_write_regs : List Nat := [A_SMR, A_BRR, A_SCMR, A_SEMR]

/-- The register indices at which scif_read finds a register. -/
def scif_read_regs : List Nat := [A_RDR, A_SCFDR] ++ sci_read_regs

/-- The register indices at which scif_write acts. -/
def scif_write_regs : List Nat := [A_SCR, A_TDR, A_SSR] ++ sci_write_regs

/-! ## The arithmetic bit-field helpers agree with the shift-and-mask ones -/

theorem deposit32_decomp (value start length : Nat) :
    value - extract32 value start length * 2 ^ start
      = 2 ^ start * (2 ^ length * (value / 2 ^ (start + length))) + value % 2 ^ start := by
  unfold extract32
  have h1 := Nat.div_add_mod value (2 ^ start)
  have h2 := Nat.div_add_mod (value / 2 ^ start) (2 ^ length)
  have h3 : value / 2 ^ start / 2 ^ length = value / 2 ^ (start + length) := by
    rw [Nat.div_div_eq_div_mul, ← pow_add]
  rw [h3] at h2
  have h4 : value = 2 ^ start * (2 ^ length * (value / 2 ^ (start + length)))
      + value / 2 ^ start % 2 ^ length * 2 ^ start + value % 2 ^ start := by
    calc value = 2 ^ start * (value / 2 ^ start) + value % 2 ^ start := h1.symm
      _ = 2 ^ start * (2 ^ length * (value / 2 ^ (start + length))
            + value / 2 ^ start % 2 ^ length) + value % 2 ^ start := by rw [h2]
      _ = _ := by ring
  omega

theorem deposit32_testBit (value start length fieldval i : Nat) :
    (deposit32 value start length fieldval).testBit i
      = (decide (i < 32) &&
          (if i < start then value.testBit i
           else if i < start + length then fieldval.testBit (i - start)
           else value.testBit i)) := by
  unfold deposit32
  rw [Nat.testBit_mod_two_pow]
  have e : value - extract32 value start length * 2 ^ start + fieldval % 2 ^ length * 2 ^ start
      = 2 ^ start * (2 ^ length * (value / 2 ^ (start + length)) + fieldval % 2 ^ length)
        + value % 2 ^ start := by
    rw [deposit32_decomp]; ring
  rw [e, Nat.testBit_mul_pow_two_add _ (Nat.mod_lt _ (by positivity)),
    Nat.testBit_mul_pow_two_add _ (Nat.mod_lt _ (by positivity))]
  simp only [Nat.testBit_mod_two_pow]
  by_cases h1 : i < start
  · simp [h1]
  · by_cases h2 : i < start + length
    · have h3 : i - start < length := by omega
      simp [h1, h2, h3]
    · have h3 : ¬ i - start < length := by omega
      simp only [h1, h2, h3, if_false]
      rw [← Nat.shiftRight_eq_div_pow, Nat.testBit_shiftRight]
      congr 2
      omega

theorem field_mask_testBit (start length i : Nat) (h : start + length ≤ 32) :
    (((2 ^ 32 - 1) >>> (32 - length)) <<< start).testBit i
      = (decide (start ≤ i) && decide (i < start + length)) := by
  simp only [Nat.testBit_shiftLeft, Nat.testBit_shiftRight, Nat.testBit_two_pow_sub_one]
  by_cases h1 : start ≤ i
  · by_cases h2 : i < start + length
    · have h3 : 32 - length + (i - start) < 32 := by omega
      simp [h1, h2, h3]
    · have h3 : ¬ 32 - length + (i - start) < 32 := by omega
      simp [h1, h2, h3]
  · simp [h1]

theorem field_mask_lt (start length : Nat) (h : start + length ≤ 32) :
    ((2 ^ 32 - 1) >>> (32 - length)) <<< start < 2 ^ 32 := by
  apply Nat.lt_pow_two_of_testBit
  intro i hi
  rw [field_mask_testBit _ _ _ h]
  have h2 : ¬ i < start + length := by omega
  simp [h2]

/-- The arithmetic deposit32 is the shift-and-mask one for every field that
lies inside 32 bits. -/
theorem deposit32_eq_mask (value start length fieldval : Nat) (h : start + length ≤ 32) :
    deposit32 value start length fieldval = deposit32_mask value start length fieldval := by
  apply Nat.eq_of_testBit_eq
  intro i
  rw [deposit32_testBit]
  unfold deposit32_mask
  have hs : 2 ^ 32 - 1 - ((2 ^ 32 - 1) >>> (32 - length)) <<< start
      = 2 ^ 32 - (((2 ^ 32 - 1) >>> (32 - length)) <<< start + 1) := by omega
  simp only []
  rw [hs]
  simp only [Nat.testBit_or, Nat.testBit_and, Nat.testBit_mod_two_pow,
    Nat.testBit_two_pow_sub_succ (field_mask_lt start length h), field_mask_testBit _ _ _ h,
    Nat.testBit_shiftLeft]
  by_cases h0 : i < 32
  · by_cases h1 : start ≤ i
    · have h1n : ¬ i < start := by omega
      by_cases h2 : i < start + length <;> simp [h0, h1, h1n, h2]
    · have h1n : i < start := by omega
      have h2 : i < start + length := by omega
      simp [h0, h1, h1n, h2]
  · simp [h0]

/-- The arithmetic extract32 is the shift-and-mask one for every 32-bit value
and every field that lies inside 32 bits. -/
theorem extract32_eq_mask (value start length : Nat) (hv : value < 2 ^ 32)
    (h : start + length ≤ 32) :
    extract32 value start length = extract32_mask value start length := by
  apply Nat.eq_of_testBit_eq
  intro i
  unfold extract32 extract32_mask
  rw [Nat.mod_eq_of_lt hv, ← Nat.shiftRight_eq_div_pow]
  simp only [Nat.testBit_and, Nat.testBit_mod_two_pow, Nat.testBit_shiftRight,
    Nat.testBit_two_pow_sub_one]
  by_cases h1 : i < length
  · have h2 : 32 - length + i < 32 := by omega
    simp [h1, h2]
  · have h2 : ¬ 32 - length + i < 32 := by omega
    simp [h1, h2]

/-! ## Arithmetic helpers -/

theorem wrap_int64_of_range {x : Int} (h1 : -2 ^ 63 ≤ x) (h2 : x < 2 ^ 63) :
    wrap_int64 x = x := by
  unfold wrap_int64; omega

theorem wrap_int32_of_range {x : Int} (h1 : -2 ^ 31 ≤ x) (h2 : x < 2 ^ 31) :
    wrap_int32 x = x := by
  unfold wrap_int32; omega

theorem wrap_int64_natCast {n : Nat} (h : n < 2 ^ 63) : wrap_int64 (n : Int) = n := by
  apply wrap_int64_of_range <;> omega

theorem wrap_int32_natCast {n : Nat} (h : n < 2 ^ 31) : wrap_int32 (n : Int) = n := by
  apply wrap_int32_of_range <;> omega

theorem bits_per_char_le (mode : Nat) : bits_per_char mode ≤ 11 := by
  unfold bits_per_char; omega

theorem bits_per_char_ge (mode : Nat) : 8 ≤ bits_per_char mode := by
  unfold bits_per_char; omega

theorem field_cks_eq (mode : Nat) : FIELD_EX8 mode SMR_CKS = clock_select mode := by
  simp [FIELD_EX8, extract32, SMR_CKS, clock_select]; omega

theorem shl_clock_select (mode : Nat) :
    1 <<< (2 * FIELD_EX8 mode SMR_CKS) = 2 ^ (2 * clock_select mode) := by
  rw [field_cks_eq, Nat.one_shiftLeft]

theorem pow_clock_select_le (mode : Nat) : 2 ^ (2 * clock_select mode) ≤ 64 := by
  have h : clock_select mode < 4 := by unfold clock_select; omega
  interval_cases clock_select mode <;> norm_num

theorem char_cycles_bound (mode divisor : Nat) (hd : divisor < 2 ^ 16) :
    char_cycles mode divisor * 10 ^ 9 < 2 ^ 63 := by
  have h1 := bits_per_char_le mode
  have h2 := pow_clock_select_le mode
  have h3 : bits_per_char mode * 32 * divisor ≤ 11 * 32 * 65535 :=
    Nat.mul_le_mul (Nat.mul_le_mul h1 le_rfl) (by omega)
  have h4 : char_cycles mode divisor ≤ 11 * 32 * 65535 * 64 := Nat.mul_le_mul h3 h2
  omega

/-! ## update_trtime, one C statement at a time -/

theorem trtime_step_chr (smr : Nat) :
    wrap_int64 (8 - (FIELD_EX8 smr SMR_CHR : Int)) = ((8 - smr / 2 ^ 6 % 2 : Nat) : Int) := by
  simp only [FIELD_EX8, extract32, SMR_CHR]
  rw [wrap_int64_of_range] <;> omega

theorem trtime_step_pe (smr : Nat) :
    wrap_int64 (((8 - smr / 2 ^ 6 % 2 : Nat) : Int) + (FIELD_EX8 smr SMR_PE : Int))
      = ((8 - smr / 2 ^ 6 % 2 + smr / 2 ^ 5 % 2 : Nat) : Int) := by
  simp only [FIELD_EX8, extract32, SMR_PE]
  rw [wrap_int64_of_range] <;> omega

theorem trtime_step_stop (smr : Nat) :
    wrap_int64 (((8 - smr / 2 ^ 6 % 2 + smr / 2 ^ 5 % 2 : Nat) : Int)
        + wrap_int32 ((FIELD_EX8 smr SMR_STOP : Int) + 1))
      = (bits_per_char smr : Int) := by
  simp only [FIELD_EX8, extract32, SMR_STOP, bits_per_char]
  rw [wrap_int32_of_range, wrap_int64_of_range] <;> omega

theorem trtime_step_brr32 (brr : Nat) (hbrr : brr < 2 ^ 16) :
    wrap_int32 (32 * (brr : Int)) = ((32 * brr : Nat) : Int) := by
  rw [wrap_int32_of_range] <;> omega

theorem trtime_step_brr (smr brr : Nat) (hbrr : brr < 2 ^ 16) :
    wrap_int64 ((bits_per_char smr : Int) * ((32 * brr : Nat) : Int))
      = ((bits_per_char smr * (32 * brr) : Nat) : Int) := by
  have hb := bits_per_char_le smr
  have hp : bits_per_char smr * (32 * brr) ≤ 11 * (32 * 65535) :=
    Nat.mul_le_mul hb (by omega)
  rw [← Nat.cast_mul]; exact wrap_int64_natCast (by omega)

theorem trtime_step_shift (smr : Nat) :
    wrap_int32 ((1 <<< (2 * FIELD_EX8 smr SMR_CKS) : Nat) : Int)
      = ((2 ^ (2 * clock_select smr) : Nat) : Int) := by
  have hk := pow_clock_select_le smr
  rw [shl_clock_select]; exact wrap_int32_natCast (by omega)

theorem trtime_step_cks (smr brr : Nat) (hbrr : brr < 2 ^ 16) :
    wrap_int64 (((bits_per_char smr * (32 * brr) : Nat) : Int)
        * ((2 ^ (2 * clock_select smr) : Nat) : Int))
      = (char_cycles smr brr : Int) := by
  have hcy := char_cycles_bound smr brr hbrr
  have hc : char_cycles smr brr
      = bits_per_char smr * (32 * brr) * 2 ^ (2 * clock_select smr) := by
    unfold char_cycles; ring
  rw [← Nat.cast_mul, ← hc]; exact wrap_int64_natCast (by omega)

theorem trtime_step_ns (smr brr : Nat) (hbrr : brr < 2 ^ 16) :
    wrap_int64 ((char_cycles smr brr : Int) * NANOSECONDS_PER_SECOND)
      = ((char_cycles smr brr * 10 ^ 9 : Nat) : Int) := by
  have hcy := char_cycles_bound smr brr hbrr
  have h : (char_cycles smr brr : Int) * NANOSECONDS_PER_SECOND
      = ((char_cycles smr brr * 10 ^ 9 : Nat) : Int) := by
    unfold NANOSECONDS_PER_SECOND; push_cast; ring
  rw [h]; exact wrap_int64_natCast hcy

theorem trtime_step_div (smr brr freq : Nat) (hbrr : brr < 2 ^ 16) :
    wrap_int64 (((char_cycles smr brr * 10 ^ 9 : Nat) : Int) % 2 ^ 64 / (freq : Int))
      = (char_time_spec smr brr freq : Int) := by
  have hcy := char_cycles_bound smr brr hbrr
  have hm : ((char_cycles smr brr * 10 ^ 9 : Nat) : Int) % 2 ^ 64
      = ((char_cycles smr brr * 10 ^ 9 : Nat) : Int) := by
    apply Int.emod_eq_of_lt
    · exact Int.natCast_nonneg _
    · have h1 : ((char_cycles smr brr * 10 ^ 9 : Nat) : Int) < ((2 ^ 63 : Nat) : Int) :=
        Int.ofNat_lt.mpr hcy
      have h2 : (((2 : Nat) ^ 63 : Nat) : Int) < 2 ^ 64 := by norm_num
      exact lt_trans h1 h2
  rw [hm, ← Int.natCast_div]
  unfold char_time_spec
  apply wrap_int64_natCast
  exact lt_of_le_of_lt (Nat.div_le_self _ _) hcy

/-- With a non-zero input clock and a 16-bit divisor, update_trtime returns and
stores the spec's char_time_ns. -/
theorem update_trtime_spec (sci : RSCIState) (hf : sci.input_freq ≠ 0)
    (hbrr : sci.brr < 2 ^ 16) :
    update_trtime sci
      = some { sci with trtime := (char_time_spec sci.smr sci.brr sci.input_freq : Nat) } := by
  unfold update_trtime
  dsimp only
  rw [trtime_step_chr, trtime_step_pe, trtime_step_stop, trtime_step_brr32 _ hbrr,
    trtime_step_brr _ _ hbrr, trtime_step_shift, trtime_step_cks _ _ hbrr,
    trtime_step_ns _ _ hbrr, trtime_step_div _ _ _ hbrr]
  simp [hf]

theorem scif_write_low (sci : RSCIState) (now : Int) (offset val size : Nat)
    (h : offset >>> 2 = A_SMR ∨ offset >>> 2 = A_BRR) :
    scif_write sci now offset val size = sci_write sci (offset >>> 2) val size := by
  unfold scif_write
  rcases h with h | h <;> simp [h, A_SMR, A_BRR, A_SCR, A_TDR, A_SSR]

/-- What receive does when the byte is stored, in closed form. -/
theorem receive_store_eq (sci : RSCIState) (now : Int) (buf : List Nat) (size : Int)
    (hdr : FIELD_EX16 sci.ssr SCFSR_DR = 0) (hsize : size ≤ 1) :
    receive sci now buf size =
      { sci with
        rx_next := wrap_int64 (now + sci.trtime),
        rdr := buf.getD 0 0 % 2 ^ 8,
        ssr := FIELD_DP16 sci.ssr SCFSR_DR 1,
        rxi := if FIELD_EX8 sci.scr SCR_RIE ≠ 0 then false else sci.rxi,
        effects := sci.effects
          ++ (if FIELD_EX8 sci.scr SCR_RIE ≠ 0
              then [Effect.set_irq Irq.RXI true, Effect.set_irq Irq.RXI false] else []) } := by
  have hs : ¬ size > 1 := not_lt.mpr hsize
  unfold receive
  by_cases hr : FIELD_EX8 sci.scr SCR_RIE = 0 <;>
    simp [hdr, hs, hr, qemu_set_irq, qemu_irq_pulse]

/-- What receive does on the overrun path, in closed form. -/
theorem receive_overrun_eq (sci : RSCIState) (now : Int) (buf : List Nat) (size : Int)
    (hov : FIELD_EX16 sci.ssr SCFSR_DR ≠ 0 ∨ size > 1) :
    receive sci now buf size =
      { sci with
        rx_next := wrap_int64 (now + sci.trtime),
        ssr := FIELD_DP16 sci.ssr SCLSR_ORER 1,
        eri := if FIELD_EX8 sci.scr SCR_RIE ≠ 0 then true else sci.eri,
        effects := sci.effects
          ++ (if FIELD_EX8 sci.scr SCR_RIE ≠ 0 then [Effect.set_irq Irq.ERI true] else []) } := by
  unfold receive
  by_cases hr : FIELD_EX8 sci.scr SCR_RIE = 0 <;>
    simp [hov, hr, qemu_set_irq]

theorem field_dr_after_set (ssr : Nat) : FIELD_EX16 (FIELD_DP16 ssr SCFSR_DR 1) SCFSR_DR = 1 := by
  simp [FIELD_EX16, FIELD_DP16, extract32, deposit32, SCFSR_DR]; omega

theorem field_dr_after_clear (ssr : Nat) : FIELD_EX16 (FIELD_DP16 ssr SCFSR_DR 0) SCFSR_DR = 0 := by
  simp [FIELD_EX16, FIELD_DP16, extract32, deposit32, SCFSR_DR]; omega

theorem field_orer_after_set (ssr : Nat) :
    FIELD_EX16 (FIELD_DP16 ssr SCLSR_ORER 1) SCLSR_ORER = 1 := by
  simp [FIELD_EX16, FIELD_DP16, extract32, deposit32, SCLSR_ORER]; omega

theorem scif_read_rdr (sci : RSCIState) (offset size : Nat) (h : offset >>> 2 = A_RDR) :
    scif_read sci offset size
      = (sci.rdr, { sci with ssr := FIELD_DP16 sci.ssr SCFSR_DR 0 }) := by
  simp [scif_read, h]

theorem scif_read_scfdr (sci : RSCIState) (offset size : Nat) (h : offset >>> 2 = A_SCFDR) :
    scif_read sci offset size
      = ((if FIELD_EX16 sci.ssr SCFSR_DR ≠ 0 then 1 else 0), sci) := by
  simp [scif_read, h, A_SCFDR, A_RDR]

theorem field_tend_tdfe_after_send (ssr : Nat) :
    FIELD_EX16 (FIELD_DP16 (FIELD_DP16 ssr SCFSR_TEND 0) SCFSR_TDFE 1) SCFSR_TEND = 0
    ∧ FIELD_EX16 (FIELD_DP16 (FIELD_DP16 ssr SCFSR_TEND 0) SCFSR_TDFE 1) SCFSR_TDFE = 1 := by
  simp [FIELD_EX16, FIELD_DP16, extract32, deposit32, SCFSR_TEND, SCFSR_TDFE]; omega

theorem field_tend_after_set (ssr : Nat) :
    FIELD_EX16 (FIELD_DP16 ssr SCFSR_TEND 1) SCFSR_TEND = 1 := by
  simp [FIELD_EX16, FIELD_DP16, extract32, deposit32, SCFSR_TEND]; omega

/-- What scif_txend does when no byte is queued, in closed form. -/
theorem scif_txend_idle_eq (sci : RSCIState) (now : Int)
    (h : FIELD_EX16 sci.ssr SCFSR_TDFE ≠ 0) :
    scif_txend sci now =
      { sci with
        ssr := FIELD_DP16 sci.ssr SCFSR_TEND 1,
        tei := if FIELD_EX16 sci.scr SCSCR_TEIE ≠ 0 then true else sci.tei,
        effects := sci.effects
          ++ (if FIELD_EX16 sci.scr SCSCR_TEIE ≠ 0 then [Effect.set_irq Irq.TEI true] else []) } := by
  unfold scif_txend
  by_cases ht : FIELD_EX16 sci.scr SCSCR_TEIE = 0 <;> simp [h, ht, qemu_set_irq]

theorem update_trtime_some (sci : RSCIState) (hf : sci.input_freq ≠ 0) :
    ∃ t, update_trtime sci = some { sci with trtime := t } := by
  unfold update_trtime
  simp [hf]

theorem sci_write_some (sci : RSCIState) (offset val size : Nat) (hf : sci.input_freq ≠ 0) :
    ∃ s', sci_write sci offset val size = some s' := by
  unfold sci_write
  obtain ⟨t1, h1⟩ := update_trtime_some { sci with smr := val % 2 ^ 16 } hf
  obtain ⟨t2, h2⟩ := update_trtime_some { sci with brr := val % 2 ^ 16 } hf
  split_ifs <;> first | exact ⟨_, h1⟩ | exact ⟨_, h2⟩ | exact ⟨_, rfl⟩

/-- An accepted mode write: the stored state, in closed form. -/
theorem sci_write_smr_eq (sci : RSCIState) (val size : Nat)
    (hen : sci_is_tr_enabled sci = false) (hf : sci.input_freq ≠ 0)
    (hbrr : sci.brr < 2 ^ 16) :
    sci_write sci A_SMR val size
      = some { sci with smr := val % 2 ^ 16,
                        trtime := (char_time_spec (val % 2 ^ 16) sci.brr sci.input_freq : Nat) } := by
  simp only [sci_write, hen, A_SMR, if_true, Bool.not_false]
  exact update_trtime_spec { sci with smr := val % 2 ^ 16 } hf hbrr

/-- An accepted baud-divisor write: the stored state, in closed form. -/
theorem sci_write_brr_eq (sci : RSCIState) (val size : Nat)
    (hen : sci_is_tr_enabled sci = false) (hf : sci.input_freq ≠ 0) :
    sci_write sci A_BRR val size
      = some { sci with brr := val % 2 ^ 16,
                        trtime := (char_time_spec sci.smr (val % 2 ^ 16) sci.input_freq : Nat) } := by
  have hv : val % 2 ^ 16 < 2 ^ 16 := Nat.mod_lt _ (by norm_num)
  simp only [sci_write, hen, A_SMR, A_BRR, if_true, Bool.not_false]
  exact update_trtime_spec { sci with brr := val % 2 ^ 16 } hf hv

/-! ## The claims -/

/-- C1: after an accepted mode or baud-divisor write (transmit-enable and
receive-enable clear, non-zero input clock frequency, a 16-bit divisor in the
register) the write returns, the register holds the written 16-bit value, and
char_time_ns is the spec's floor(bits_per_char * 32 * divisor *
2^(2*clock_select) * 10^9 / input_freq) of the mode and divisor now stored;
the full product stays below 2^63, so no intermediate value wraps.  The
word-addressed variant takes the same path at register indices 0 and 1. -/
theorem char_time_after_accepted_write (sci : RSCIState) (now : Int) (val size : Nat)
    (hen : sci_is_tr_enabled sci = false) (hf : sci.input_freq ≠ 0)
    (hbrr : sci.brr < 2 ^ 16) :
    (∃ s', sci_write sci A_SMR val size = some s'
        ∧ s'.smr = val % 2 ^ 16 ∧ s'.brr = sci.brr ∧ s'.input_freq = sci.input_freq
        ∧ s'.trtime = ((bits_per_char s'.smr * 32 * s'.brr * 2 ^ (2 * clock_select s'.smr)
            * 10 ^ 9 / s'.input_freq : Nat) : Int)
        ∧ bits_per_char s'.smr * 32 * s'.brr * 2 ^ (2 * clock_select s'.smr) * 10 ^ 9 < 2 ^ 63)
    ∧ (∃ s', sci_write sci A_BRR val size = some s'
        ∧ s'.brr = val % 2 ^ 16 ∧ s'.smr = sci.smr ∧ s'.input_freq = sci.input_freq
        ∧ s'.trtime = ((bits_per_char s'.smr * 32 * s'.brr * 2 ^ (2 * clock_select s'.smr)
            * 10 ^ 9 / s'.input_freq : Nat) : Int)
        ∧ bits_per_char s'.smr * 32 * s'.brr * 2 ^ (2 * clock_select s'.smr) * 10 ^ 9 < 2 ^ 63)
    ∧ (∀ offset, offset >>> 2 = A_SMR →
        scif_write sci now offset val size = sci_write sci A_SMR val size)
    ∧ (∀ offset, offset >>> 2 = A_BRR →
        scif_write sci now offset val size = sci_write sci A_BRR val size) := by
  have hv : val % 2 ^ 16 < 2 ^ 16 := Nat.mod_lt _ (by norm_num)
  refine ⟨?_, ?_, ?_, ?_⟩
  · exact ⟨_, sci_write_smr_eq sci val size hen hf hbrr, rfl, rfl, rfl, rfl,
      char_cycles_bound _ _ hbrr⟩
  · exact ⟨_, sci_write_brr_eq sci val size hen hf, rfl, rfl, rfl, rfl,
      char_cycles_bound _ _ hv⟩
  · intro offset h
    rw [scif_write_low sci now offset val size (Or.inl h), h]
  · intro offset h
    rw [scif_write_low sci now offset val size (Or.inr h), h]

/-- C1, tried on the demo state with divisor 3: writing mode 0x08 gives a
character time of 15000 ns at 64 MHz. -/
theorem char_time_after_accepted_write_witness :
    ∃ s', sci_write { demo with brr := 3 } A_SMR 8 1 = some s' ∧ s'.smr = 8
      ∧ s'.trtime = 15000 := by
  obtain ⟨⟨s', h1, h2, h3, h4, h5, _⟩, _⟩ :=
    char_time_after_accepted_write { demo with brr := 3 } 0 8 1
      (by decide) (by decide) (by decide)
  refine ⟨s', h1, by rw [h2]; norm_num, ?_⟩
  rw [h5, h2, h3, h4]
  simp [demo, bits_per_char, clock_select]

/-- What scif_send_byte does, in closed form. -/
theorem scif_send_byte_eq (sci : RSCIState) (now : Int) :
    scif_send_byte sci now =
      { sci with
        ssr := FIELD_DP16 (FIELD_DP16 sci.ssr SCFSR_TEND 0) SCFSR_TDFE 1,
        timer := some (wrap_int64 (now + sci.trtime)),
        tei := false,
        txi := if FIELD_EX8 sci.scr SCR_TIE ≠ 0 then false else sci.txi,
        effects := sci.effects
          ++ (if sci.chr_connected then [Effect.chr_write sci.tdr] else [])
          ++ [Effect.timer_mod (wrap_int64 (now + sci.trtime)), Effect.set_irq Irq.TEI false]
          ++ (if FIELD_EX8 sci.scr SCR_TIE ≠ 0
              then [Effect.set_irq Irq.TXI true, Effect.set_irq Irq.TXI false] else []) } := by
  unfold scif_send_byte
  by_cases hc : sci.chr_connected = true <;>
    by_cases ht : FIELD_EX8 sci.scr SCR_TIE = 0 <;>
    simp [hc, ht, timer_mod, qemu_chr_fe_write_all, qemu_set_irq, qemu_irq_pulse]

theorem scif_send_byte_timer (sci : RSCIState) (now : Int) :
    (scif_send_byte sci now).timer = some (wrap_int64 (now + sci.trtime)) := by
  rw [scif_send_byte_eq]

/-- C2: with a 64,000,000 Hz input clock and divisor 1, an accepted write of a
mode value with clock-select 0, char-length bit 0 (8 data bits), parity
disabled and stop-bits field 1 recomputes char_time_ns to 5000; with that
character time, a transmit-data write made while idle (transmit-end set) at
time 0 arms the completion timer at deadline 5000 ns. -/
theorem char_time_64mhz_scenario (sci : RSCIState) (now : Int) (mode byte size : Nat)
    (hen : sci_is_tr_enabled sci = false)
    (hf : sci.input_freq = 64000000) (hbrr : sci.brr = 1)
    (hcks : FIELD_EX8 mode SMR_CKS = 0) (hchr : FIELD_EX8 mode SMR_CHR = 0)
    (hpe : FIELD_EX8 mode SMR_PE = 0) (hstop : FIELD_EX8 mode SMR_STOP = 1) :
    ∃ s1, scif_write sci now (4 * A_SMR) mode size = some s1 ∧ s1.trtime = 5000
      ∧ ∀ s2 : RSCIState, s2.trtime = s1.trtime → FIELD_EX8 s2.ssr SCFSR_TEND ≠ 0 →
          ∃ s3, scif_write s2 0 (4 * A_TDR) byte size = some s3 ∧ s3.timer = some 5000 := by
  have hf0 : sci.input_freq ≠ 0 := by rw [hf]; norm_num
  have hb16 : sci.brr < 2 ^ 16 := by rw [hbrr]; norm_num
  have h1 := sci_write_smr_eq sci mode size hen hf0 hb16
  have hbits : bits_per_char (mode % 2 ^ 16) = 10 := by
    simp only [FIELD_EX8, extract32, SMR_CHR, SMR_PE, SMR_STOP] at hchr hpe hstop
    unfold bits_per_char
    omega
  have hsel : clock_select (mode % 2 ^ 16) = 0 := by
    simp only [FIELD_EX8, extract32, SMR_CKS] at hcks
    unfold clock_select
    omega
  have ht : ((char_time_spec (mode % 2 ^ 16) sci.brr sci.input_freq : Nat) : Int) = 5000 := by
    unfold char_time_spec char_cycles
    rw [hbits, hsel, hbrr, hf]
    norm_num
  refine ⟨{ sci with smr := mode % 2 ^ 16,
                     trtime := (char_time_spec (mode % 2 ^ 16) sci.brr sci.input_freq : Nat) },
    ?_, ht, ?_⟩
  · rw [scif_write_low sci now (4 * A_SMR) mode size (Or.inl (by decide))]
    exact h1
  · intro s2 hs2 htend
    refine ⟨scif_send_byte { s2 with tdr := byte % 2 ^ 8 } 0, ?_, ?_⟩
    · unfold scif_write
      simp [A_TDR, A_SCR, htend]
    · rw [scif_send_byte_timer]
      simp only [hs2, ht]
      rfl

/-- C2, tried from the demo state: mode 0x08 is written with divisor 1, then a
byte is written to an idle transmitter at time 0. -/
theorem char_time_64mhz_scenario_witness :
    ∃ s3, scif_write { demo with trtime := 5000, ssr := 0x60 } 0 12 0x41 2 = some s3
      ∧ s3.timer = some 5000 := by
  obtain ⟨s1, _, h2, h3⟩ :=
    char_time_64mhz_scenario { demo with brr := 1 } 0 8 0x41 2
      (by decide) (by decide) (by decide) (by decide) (by decide) (by decide) (by decide)
  exact h3 { demo with trtime := 5000, ssr := 0x60 } (by rw [h2]) (by decide)

/-- A run of the 64 MHz scenario from reset in the word-addressed variant:
divisor 1 and mode 0x08 are written, transmit-enable is set, a byte is written
at time 0; the character time is 5000 and the timer is pending at 5000. -/
theorem scenario_64mhz_run_from_reset :
    ((scif_write (rsci_reset demo 0) 0 4 1 2).bind fun s1 =>
      (scif_write s1 0 0 0x08 2).bind fun s2 =>
      (scif_write s2 0 8 0x20 2).bind fun s3 =>
      (scif_write s3 0 12 0x41 2).map fun s4 => (s2.trtime, s4.timer))
      = some (5000, some 5000) := by
  set_option maxRecDepth 100000 in decide

/-- An accepted mode write on an instance whose input clock is zero has no
result: update_trtime divides by the input clock. -/
theorem zero_input_freq_write_has_no_result :
    sci_write { demo with input_freq := 0 } A_SMR 0 1 = none := by
  decide

/-- C3: in the word-addressed variant, for the mode register (index 0) and the
baud-divisor register (index 1) and every 16-bit value v: with transmit-enable
and receive-enable clear (and the non-zero input clock an instance is built
with) the write returns and a read gives v back; with either enable bit set
the write leaves the whole state as it was, so the next read gives the old
value and char_time_ns is unchanged. -/
theorem mode_baud_roundtrip (sci : RSCIState) (now : Int) (offset v size : Nat)
    (hv : v < 2 ^ 16) (hoff : offset >>> 2 = A_SMR ∨ offset >>> 2 = A_BRR) :
    (sci_is_tr_enabled sci = false → sci.input_freq ≠ 0 →
      ∃ s', scif_write sci now offset v size = some s' ∧ (scif_read s' offset size).1 = v)
    ∧ (sci_is_tr_enabled sci = true →
      ∃ s', scif_write sci now offset v size = some s'
        ∧ (scif_read s' offset size).1 = (scif_read sci offset size).1
        ∧ s'.trtime = sci.trtime ∧ s' = sci) := by
  constructor
  · intro hen hf
    rcases hoff with h | h
    · obtain ⟨t, ht⟩ := update_trtime_some { sci with smr := v % 2 ^ 16 } hf
      refine ⟨{ sci with smr := v % 2 ^ 16, trtime := t }, ?_, ?_⟩
      · rw [scif_write_low sci now offset v size (Or.inl h), h]
        simp only [sci_write, hen, A_SMR, if_true, Bool.not_false]
        exact ht
      · simp [scif_read, sci_read, h, A_SMR, A_RDR, A_SCFDR]
        omega
    · obtain ⟨t, ht⟩ := update_trtime_some { sci with brr := v % 2 ^ 16 } hf
      refine ⟨{ sci with brr := v % 2 ^ 16, trtime := t }, ?_, ?_⟩
      · rw [scif_write_low sci now offset v size (Or.inr h), h]
        simp only [sci_write, hen, A_SMR, A_BRR, if_true, Bool.not_false]
        exact ht
      · simp [scif_read, sci_read, h, A_SMR, A_BRR, A_RDR, A_SCFDR]
        omega
  · intro hen
    refine ⟨sci, ?_, rfl, rfl, rfl⟩
    rw [scif_write_low sci now offset v size hoff]
    rcases hoff with h | h <;> simp [sci_write, h, hen, A_SMR, A_BRR]

/-- C3, tried on the demo state: 0x1234 written to the divisor register at
byte offset 4 reads back. -/
theorem mode_baud_roundtrip_witness :
    ∃ s', scif_write demo 0 4 0x1234 2 = some s' ∧ (scif_read s' 4 2).1 = 0x1234 :=
  (mode_baud_roundtrip demo 0 4 0x1234 2 (by decide) (by decide)).1 (by decide) (by decide)

/-- C4: after reset the stored status is 0x84 whatever the state before.
Decoded in the narrow layout this is TDRE = 1, TEND = 1 and no parity, framing
or overrun error.  Decoded in the word-addressed layout the same value is
TDFE = 0, TEND = 0, parity-error = 1 and error-summary = 1 (framing and break
are 0): the pattern the claim expects is not the one a reset leaves in that
variant. -/
theorem reset_status_pattern (sci : RSCIState) (now : Int) :
    (rsci_reset sci now).ssr = 0x84
    ∧ (FIELD_EX8 (rsci_reset sci now).ssr SSR_TDRE = 1
      ∧ FIELD_EX8 (rsci_reset sci now).ssr SSR_TEND = 1
      ∧ FIELD_EX8 (rsci_reset sci now).ssr SSR_PER = 0
      ∧ FIELD_EX8 (rsci_reset sci now).ssr SSR_FER = 0
      ∧ FIELD_EX8 (rsci_reset sci now).ssr SSR_ORER = 0)
    ∧ (FIELD_EX16 (rsci_reset sci now).ssr SCFSR_TDFE = 0
      ∧ FIELD_EX16 (rsci_reset sci now).ssr SCFSR_TEND = 0
      ∧ FIELD_EX16 (rsci_reset sci now).ssr SCFSR_PER = 1
      ∧ FIELD_EX16 (rsci_reset sci now).ssr SCFSR_ER = 1
      ∧ FIELD_EX16 (rsci_reset sci now).ssr SCFSR_FER = 0
      ∧ FIELD_EX16 (rsci_reset sci now).ssr SCFSR_BRK = 0) := by
  have h : (rsci_reset sci now).ssr = 0x84 := rfl
  rw [h]
  decide

/-- C5: in the word-addressed variant, with data-ready clear, a receive event
carrying one byte b followed by a read of the receive-data register (index 5)
returns b; the FIFO data count (index 7) reads 1 in between, without changing
the state, and 0 afterwards; data-ready is clear after the read, and the next
one-byte receive event is stored (its byte is in the receive-data register,
data-ready is set again, the error line is as it was before the first event
and no error-line change was requested). -/
theorem receive_then_read (sci : RSCIState) (now now2 : Int) (b b2 offr offc size : Nat)
    (hb : b < 2 ^ 8) (hb2 : b2 < 2 ^ 8)
    (hr : offr >>> 2 = A_RDR) (hc : offc >>> 2 = A_SCFDR)
    (hdr : FIELD_EX16 sci.ssr SCFSR_DR = 0) :
    scif_read (receive sci now [b] 1) offc size = (1, receive sci now [b] 1)
    ∧ (scif_read (receive sci now [b] 1) offr size).1 = b
    ∧ (scif_read (scif_read (receive sci now [b] 1) offr size).2 offc size).1 = 0
    ∧ FIELD_EX16 (scif_read (receive sci now [b] 1) offr size).2.ssr SCFSR_DR = 0
    ∧ (receive (scif_read (receive sci now [b] 1) offr size).2 now2 [b2] 1).rdr = b2
    ∧ FIELD_EX16 (receive (scif_read (receive sci now [b] 1) offr size).2 now2 [b2] 1).ssr
        SCFSR_DR = 1
    ∧ (receive (scif_read (receive sci now [b] 1) offr size).2 now2 [b2] 1).eri = sci.eri
    ∧ ∀ level, Effect.set_irq Irq.ERI level ∈
          (receive (scif_read (receive sci now [b] 1) offr size).2 now2 [b2] 1).effects →
        Effect.set_irq Irq.ERI level ∈ sci.effects := by
  have e1 := receive_store_eq sci now [b] 1 hdr le_rfl
  have hdr1 : FIELD_EX16 (receive sci now [b] 1).ssr SCFSR_DR = 1 := by
    rw [e1]; exact field_dr_after_set _
  have er := scif_read_rdr (receive sci now [b] 1) offr size hr
  have hdr2 : FIELD_EX16 (scif_read (receive sci now [b] 1) offr size).2.ssr SCFSR_DR = 0 := by
    rw [er]; exact field_dr_after_clear _
  have e3 := receive_store_eq (scif_read (receive sci now [b] 1) offr size).2 now2 [b2] 1
    hdr2 le_rfl
  refine ⟨?_, ?_, ?_, hdr2, ?_, ?_, ?_, ?_⟩
  · rw [scif_read_scfdr _ _ _ hc, hdr1]
    simp
  · rw [er, e1]
    simp
    omega
  · rw [scif_read_scfdr _ _ _ hc, hdr2]
    simp
  · rw [e3]
    simp
    omega
  · rw [e3]; exact field_dr_after_set _
  · rw [e3, er, e1]
  · intro level
    rw [e3, er, e1]
    by_cases h : FIELD_EX8 sci.scr SCR_RIE = 0 <;> simp [h]

/-- C5, tried on the demo state with the byte 0x41. -/
theorem receive_then_read_witness :
    (scif_read (receive demo 0 [0x41] 1) 20 2).1 = 0x41 :=
  (receive_then_read demo 0 7 0x41 0x42 20 28 2 (by decide) (by decide) (by decide)
    (by decide) (by decide)).2.1

/-- C6: with the holding register empty (data-ready cleared), a receive event
carrying b1 followed, with no read of receive-data in between, by a receive
event carrying b2 keeps b1 in the receive-data register, but the second event
sets no overrun flag: its deposit goes to bit 0 of the status word, which is
data-ready and already set by the first event, so the status word after the
second event is the one before it.  The overrun flag of the narrow layout
(bit 5) is as it was before both events, and the line-status register of the
word-addressed variant (index 9) is not implemented: it reads all ones, in
either variant's read function, and changes nothing. -/
theorem second_receive_sets_no_flag (sci : RSCIState) (now1 now2 : Int) (b1 b2 size : Nat) :
    FIELD_EX16 ({ sci with ssr := FIELD_DP16 sci.ssr SCFSR_DR 0 } : RSCIState).ssr SCFSR_DR = 0
    ∧ (receive { sci with ssr := FIELD_DP16 sci.ssr SCFSR_DR 0 } now1 [b1] 1).rdr = b1 % 2 ^ 8
    ∧ (receive (receive { sci with ssr := FIELD_DP16 sci.ssr SCFSR_DR 0 } now1 [b1] 1)
        now2 [b2] 1).rdr = b1 % 2 ^ 8
    ∧ (receive (receive { sci with ssr := FIELD_DP16 sci.ssr SCFSR_DR 0 } now1 [b1] 1)
        now2 [b2] 1).ssr
        = (receive { sci with ssr := FIELD_DP16 sci.ssr SCFSR_DR 0 } now1 [b1] 1).ssr
    ∧ FIELD_EX8 (receive (receive { sci with ssr := FIELD_DP16 sci.ssr SCFSR_DR 0 } now1 [b1] 1)
        now2 [b2] 1).ssr SSR_ORER = FIELD_EX8 sci.ssr SSR_ORER
    ∧ scif_read (receive (receive { sci with ssr := FIELD_DP16 sci.ssr SCFSR_DR 0 } now1 [b1] 1)
        now2 [b2] 1) (4 * A_SCLSR) size
        = (0xFFFFFFFFFFFFFFFF,
            receive (receive { sci with ssr := FIELD_DP16 sci.ssr SCFSR_DR 0 } now1 [b1] 1)
              now2 [b2] 1)
    ∧ (receive demo 0 [0x41] 1).ssr = 1
    ∧ (receive (receive demo 0 [0x41] 1) 1 [0x42] 1).ssr = 1
    ∧ (receive (receive demo 0 [0x41] 1) 1 [0x42] 1).rdr = 0x41 := by
  have hdr := field_dr_after_clear sci.ssr
  have e1 := receive_store_eq { sci with ssr := FIELD_DP16 sci.ssr SCFSR_DR 0 } now1 [b1] 1
    hdr le_rfl
  have hdr1 : FIELD_EX16
      (receive { sci with ssr := FIELD_DP16 sci.ssr SCFSR_DR 0 } now1 [b1] 1).ssr SCFSR_DR
      ≠ 0 := by
    rw [e1, field_dr_after_set]; decide
  have e2 := receive_overrun_eq
    (receive { sci with ssr := FIELD_DP16 sci.ssr SCFSR_DR 0 } now1 [b1] 1) now2 [b2] 1
    (Or.inl hdr1)
  have hr1 : (receive { sci with ssr := FIELD_DP16 sci.ssr SCFSR_DR 0 } now1 [b1] 1).rdr
      = b1 % 2 ^ 8 := by
    rw [e1]
    simp
  have hs1 : (receive { sci with ssr := FIELD_DP16 sci.ssr SCFSR_DR 0 } now1 [b1] 1).ssr
      = FIELD_DP16 (FIELD_DP16 sci.ssr SCFSR_DR 0) SCFSR_DR 1 := by
    rw [e1]
  have hfix : FIELD_DP16 (FIELD_DP16 (FIELD_DP16 sci.ssr SCFSR_DR 0) SCFSR_DR 1) SCLSR_ORER 1
      = FIELD_DP16 (FIELD_DP16 sci.ssr SCFSR_DR 0) SCFSR_DR 1 := by
    simp [FIELD_DP16, extract32, deposit32, SCFSR_DR, SCLSR_ORER]
    omega
  have hnarrow : FIELD_EX8 (FIELD_DP16 (FIELD_DP16 sci.ssr SCFSR_DR 0) SCFSR_DR 1) SSR_ORER
      = FIELD_EX8 sci.ssr SSR_ORER := by
    simp [FIELD_EX8, FIELD_DP16, extract32, deposit32, SCFSR_DR, SSR_ORER]
    omega
  have hs2 : (receive (receive { sci with ssr := FIELD_DP16 sci.ssr SCFSR_DR 0 } now1 [b1] 1)
      now2 [b2] 1).ssr
      = (receive { sci with ssr := FIELD_DP16 sci.ssr SCFSR_DR 0 } now1 [b1] 1).ssr := by
    rw [e2]
    show FIELD_DP16
      (receive { sci with ssr := FIELD_DP16 sci.ssr SCFSR_DR 0 } now1 [b1] 1).ssr SCLSR_ORER 1
      = (receive { sci with ssr := FIELD_DP16 sci.ssr SCFSR_DR 0 } now1 [b1] 1).ssr
    rw [hs1]
    exact hfix
  refine ⟨hdr, hr1, ?_, hs2, ?_, ?_, by decide, by decide, by decide⟩
  · rw [e2]; exact hr1
  · rw [hs2, hs1]; exact hnarrow
  · simp [scif_read, sci_read, A_SCLSR, A_RDR, A_SCFDR, A_SMR, A_BRR, A_SCR, A_TDR, A_SSR,
      A_SCMR, A_SEMR, UINT64_MAX]

/-- C7 as stated fails: in `overrun_rie_only` the error-interrupt-enable bit of
the control register (REIE, bit 3) is clear, like every control bit other than
receive-interrupt-enable, and the error line is low; the receive event hits
the overrun condition (data-ready is set) and raises the error line. -/
theorem overrun_raises_error_line_without_reie :
    FIELD_EX16 overrun_rie_only.scr SCSCR_REIE = 0
    ∧ overrun_rie_only.scr = 0x40
    ∧ overrun_rie_only.eri = false
    ∧ FIELD_EX16 overrun_rie_only.ssr SCFSR_DR ≠ 0
    ∧ (receive overrun_rie_only 0 [0x41] 1).eri = true := by
  decide

/-- C7, amended: the bit that gates the error line is receive-interrupt-enable
(RIE, bit 6 of the control register).  For every receive event that hits the
overrun condition: if RIE is clear and the error line was low, the line stays
low and no line change is requested, whatever the other control bits (REIE
included); if RIE is set the line is raised, by one request to raise it,
whatever the other control bits. -/
theorem overrun_error_line_gated_by_rie (sci : RSCIState) (now : Int) (buf : List Nat)
    (size : Int) (hov : FIELD_EX16 sci.ssr SCFSR_DR ≠ 0 ∨ size > 1) :
    (FIELD_EX8 sci.scr SCR_RIE = 0 → sci.eri = false →
        (receive sci now buf size).eri = false
        ∧ (receive sci now buf size).effects = sci.effects)
    ∧ (FIELD_EX8 sci.scr SCR_RIE ≠ 0 →
        (receive sci now buf size).eri = true
        ∧ (receive sci now buf size).effects = sci.effects ++ [Effect.set_irq Irq.ERI true]) := by
  rw [receive_overrun_eq sci now buf size hov]
  refine ⟨?_, ?_⟩
  · intro hr he
    simp [hr, he]
  · intro hr
    simp [hr]

/-- C7 amended, tried on a state with receive-interrupt-enable clear and the
other control bits set. -/
theorem overrun_error_line_gated_by_rie_witness :
    (receive { demo with scr := 0xbf, ssr := 0x01 } 0 [0x41] 1).eri = false :=
  ((overrun_error_line_gated_by_rie { demo with scr := 0xbf, ssr := 0x01 } 0 [0x41] 1
    (Or.inl (by decide))).1 (by decide) rfl).1

/-- C8 as stated fails: the byte written to the idle `tx_idle_tie` at time 0
arms the timer at 5000; when the timer fires at 5000 with nothing further
queued, transmit-interrupt-enable is set and transmit-end is set again, but
the fire requests no change of any line: the transmit-interrupt line is not
pulsed at the fire. -/
theorem no_transmit_pulse_at_idle_fire :
    scif_write tx_idle_tie 0 12 0x41 2 = some tx_idle_tie_written
    ∧ tx_idle_tie_written.timer = some 5000
    ∧ FIELD_EX8 tx_idle_tie_written.scr SCR_TIE = 1
    ∧ FIELD_EX16 tx_idle_tie_written.ssr SCFSR_TDFE = 1
    ∧ FIELD_EX16 (scif_timer_expire tx_idle_tie_written 5000).ssr SCFSR_TEND = 1
    ∧ (scif_timer_expire tx_idle_tie_written 5000).effects = tx_idle_tie_written.effects := by
  decide

/-- C8, amended: writing the transmit-data register (index 3) while idle
(transmit-end set) at time t, with t + char_time_ns representable, hands the
byte to a connected backend, arms the timer exactly once, at
t + char_time_ns, lowers the transmit-end line and pulses the
transmit-interrupt line at the write exactly when transmit-interrupt-enable is
set at the write; transmit-end is then clear and transmit-empty set.  When
that deadline is still pending and the timer fires (at or after the deadline)
with no further byte queued, transmit-end is set again, the timer is no longer
pending, and the only line change the fire requests is raising the
transmit-end line when bit 11 of the control register is set: the
transmit-interrupt line is not pulsed at the fire, whatever
transmit-interrupt-enable is. -/
theorem transmit_while_idle (sci : RSCIState) (t : Int) (offset val size : Nat)
    (hoff : offset >>> 2 = A_TDR)
    (hidle : FIELD_EX8 sci.ssr SCFSR_TEND ≠ 0)
    (hlo : -2 ^ 63 ≤ t + sci.trtime) (hhi : t + sci.trtime < 2 ^ 63) :
    ∃ s1, scif_write sci t offset val size = some s1
      ∧ s1.timer = some (t + sci.trtime)
      ∧ s1.effects = sci.effects
          ++ (if sci.chr_connected then [Effect.chr_write (val % 2 ^ 8)] else [])
          ++ [Effect.timer_mod (t + sci.trtime), Effect.set_irq Irq.TEI false]
          ++ (if FIELD_EX8 sci.scr SCR_TIE ≠ 0
              then [Effect.set_irq Irq.TXI true, Effect.set_irq Irq.TXI false] else [])
      ∧ FIELD_EX16 s1.ssr SCFSR_TEND = 0
      ∧ FIELD_EX16 s1.ssr SCFSR_TDFE = 1
      ∧ ∀ (sf : RSCIState) (now : Int), sf.timer = s1.timer → t + sci.trtime ≤ now →
          FIELD_EX16 sf.ssr SCFSR_TDFE ≠ 0 →
          FIELD_EX16 (scif_timer_expire sf now).ssr SCFSR_TEND = 1
          ∧ (scif_timer_expire sf now).timer = none
          ∧ (scif_timer_expire sf now).effects = sf.effects
              ++ (if FIELD_EX16 sf.scr SCSCR_TEIE ≠ 0 then [Effect.set_irq Irq.TEI true] else [])
          ∧ Effect.set_irq Irq.TXI true ∉
              (if FIELD_EX16 sf.scr SCSCR_TEIE ≠ 0 then [Effect.set_irq Irq.TEI true] else []) := by
  have hw : wrap_int64 (t + sci.trtime) = t + sci.trtime := wrap_int64_of_range hlo hhi
  have hsend := scif_send_byte_eq { sci with tdr := val % 2 ^ 8 } t
  have hflags := field_tend_tdfe_after_send sci.ssr
  refine ⟨scif_send_byte { sci with tdr := val % 2 ^ 8 } t, ?_, ?_, ?_, ?_, ?_, ?_⟩
  · unfold scif_write
    simp [hoff, A_TDR, A_SCR, hidle]
  · rw [hsend]; simp only [hw]
  · rw [hsend]; simp only [hw]
  · rw [hsend]; exact hflags.1
  · rw [hsend]; exact hflags.2
  · intro sf now htimer hnow hq
    have ht : sf.timer = some (t + sci.trtime) := by
      rw [htimer, hsend]; simp only [hw]
    have hq' : FIELD_EX16 ({ sf with timer := none } : RSCIState).ssr SCFSR_TDFE ≠ 0 := hq
    have hexp : scif_timer_expire sf now = scif_txend { sf with timer := none } now := by
      unfold scif_timer_expire
      rw [ht]
      simp [hnow]
    rw [hexp, scif_txend_idle_eq _ now hq']
    refine ⟨field_tend_after_set _, rfl, rfl, ?_⟩
    by_cases h : FIELD_EX16 sf.scr SCSCR_TEIE = 0 <;> simp [h]

/-- C8 amended, tried on `tx_idle_tie`: the write at time 0 arms the timer at
5000. -/
theorem transmit_while_idle_witness :
    ∃ s1, scif_write tx_idle_tie 0 12 0x41 2 = some s1 ∧ s1.timer = some (0 + 5000) := by
  obtain ⟨s1, h1, h2, _⟩ :=
    transmit_while_idle tx_idle_tie 0 12 0x41 2 (by decide) (by decide) (by decide) (by decide)
  exact ⟨s1, h1, h2⟩

/-- Register accesses apart from the zero input clock: a register read is a
total function; with a non-zero input clock a register write returns a state
for every offset, value and width; a read at an offset outside the implemented
registers returns all ones and a write there, or to the receive-data
register, leaves the state as it was. -/
theorem register_access_with_clock (sci : RSCIState) (now : Int) (offset val size : Nat) :
    (sci.input_freq ≠ 0 →
      (∃ s', sci_write sci offset val size = some s')
      ∧ (∃ s', scif_write sci now offset val size = some s'))
    ∧ (∃ v s', sci_read sci offset size = (v, s'))
    ∧ (∃ v s', scif_read sci offset size = (v, s'))
    ∧ (offset ∉ sci_read_regs → sci_read sci offset size = (0xFFFFFFFFFFFFFFFF, sci))
    ∧ (offset >>> 2 ∉ scif_read_regs → scif_read sci offset size = (0xFFFFFFFFFFFFFFFF, sci))
    ∧ (offset ∉ sci_write_regs → sci_write sci offset val size = some sci)
    ∧ (offset >>> 2 ∉ scif_write_regs → scif_write sci now offset val size = some sci)
    ∧ sci_write sci A_RDR val size = some sci
    ∧ (offset >>> 2 = A_RDR → scif_write sci now offset val size = some sci) := by
  refine ⟨?_, ⟨_, _, rfl⟩, ⟨_, _, rfl⟩, ?_, ?_, ?_, ?_, ?_, ?_⟩
  · intro hf
    refine ⟨sci_write_some sci offset val size hf, ?_⟩
    unfold scif_write
    have h := sci_write_some sci (offset >>> 2) val size hf
    dsimp only
    split_ifs <;> first | exact h | exact ⟨_, rfl⟩
  · intro h
    simp only [sci_read_regs, List.mem_cons, List.mem_singleton, List.not_mem_nil, not_or,
      or_false] at h
    simp [sci_read, h, UINT64_MAX]
  · intro h
    simp only [scif_read_regs, sci_read_regs, List.mem_cons, List.mem_singleton,
      List.not_mem_nil, not_or, or_false, List.cons_append, List.nil_append] at h
    simp [scif_read, sci_read, h, UINT64_MAX]
  · intro h
    simp only [sci_write_regs, List.mem_cons, List.mem_singleton, List.not_mem_nil, not_or,
      or_false] at h
    simp [sci_write, h]
  · intro h
    simp only [scif_write_regs, sci_write_regs, List.mem_cons, List.mem_singleton,
      List.not_mem_nil, not_or, or_false, List.cons_append, List.nil_append] at h
    simp [scif_write, sci_write, h]
  · simp [sci_write, A_RDR, A_SMR, A_BRR]
  · intro h
    simp [scif_write, sci_write, h, A_RDR, A_SMR, A_BRR, A_SCR, A_TDR, A_SSR]

/-- C9: a register write is not total.  An instance whose input clock is zero
is realized without an error reported; after a reset, when transmit-enable and
receive-enable are clear, a write to the mode or the baud-divisor register of
either variant is accepted and the recomputation of the character time
divides by the zero clock: the write has no result, whatever value is written.
The rest holds in every state: a read at an offset that decodes to no
implemented register (the narrow offsets from 8 on, the word-addressed
offsets from 32 on, and the word-addressed divisor latch at index 12) returns
0xFFFFFFFFFFFFFFFF and changes nothing, and a write to such an offset or to
the receive-data register changes nothing. -/
theorem register_write_aborts_at_zero_clock (sci : RSCIState) (now : Int)
    (k val size : Nat) :
    (rsci_realize { sci with input_freq := 0 } none).errp = none
    ∧ sci_write (rsci_reset { sci with input_freq := 0 } now) A_SMR val size = none
    ∧ sci_write (rsci_reset { sci with input_freq := 0 } now) A_BRR val size = none
    ∧ scif_write (rsci_reset { sci with input_freq := 0 } now) now (4 * A_SMR) val size = none
    ∧ scif_write (rsci_reset { sci with input_freq := 0 } now) now (4 * A_BRR) val size = none
    ∧ sci_read sci (8 + k) size = (0xFFFFFFFFFFFFFFFF, sci)
    ∧ scif_read sci (32 + k) size = (0xFFFFFFFFFFFFFFFF, sci)
    ∧ scif_read sci (4 * A_DL) size = (0xFFFFFFFFFFFFFFFF, sci)
    ∧ sci_write sci (8 + k) val size = some sci
    ∧ scif_write sci now (32 + k) val size = some sci
    ∧ sci_write sci A_RDR val size = some sci
    ∧ scif_write sci now (4 * A_RDR) val size = some sci := by
  have hk : 8 ≤ (32 + k) >>> 2 := by
    rw [Nat.shiftRight_eq_div_pow]
    omega
  refine ⟨?_, ?_, ?_, ?_, ?_, ?_, ?_, ?_, ?_, ?_, ?_, ?_⟩
  · simp [rsci_realize]
  · simp [sci_write, sci_is_tr_enabled, rsci_reset, update_trtime, A_SMR, FIELD_EX8, extract32]
  · simp [sci_write, sci_is_tr_enabled, rsci_reset, update_trtime, A_SMR, A_BRR, FIELD_EX8,
      extract32]
  · simp [scif_write, sci_write, sci_is_tr_enabled, rsci_reset, update_trtime, A_SMR, A_SCR,
      A_TDR, A_SSR, FIELD_EX8, extract32]
  · simp [scif_write, sci_write, sci_is_tr_enabled, rsci_reset, update_trtime, A_SMR, A_BRR,
      A_SCR, A_TDR, A_SSR, FIELD_EX8, extract32]
  · have h : ∀ n, n ≤ 7 → 8 + k ≠ n := by intro n hn; omega
    simp [sci_read, A_SMR, A_BRR, A_SCR, A_TDR, A_SSR, A_SCMR, A_SEMR, UINT64_MAX,
      h 0, h 1, h 2, h 3, h 4, h 6, h 7]
  · have h : ∀ n, n ≤ 7 → (32 + k) >>> 2 ≠ n := by intro n hn; omega
    simp [scif_read, sci_read, A_RDR, A_SCFDR, A_SMR, A_BRR, A_SCR, A_TDR, A_SSR, A_SCMR,
      A_SEMR, UINT64_MAX, h 0, h 1, h 2, h 3, h 4, h 5, h 6, h 7]
  · simp [scif_read, sci_read, A_DL, A_RDR, A_SCFDR, A_SMR, A_BRR, A_SCR, A_TDR, A_SSR,
      A_SCMR, A_SEMR, UINT64_MAX]
  · have h : ∀ n, n ≤ 7 → 8 + k ≠ n := by intro n hn; omega
    simp [sci_write, A_SMR, A_BRR, A_RDR, A_SCMR, A_SEMR, h 0, h 1, h 5, h 6, h 7]
  · have h : ∀ n, n ≤ 7 → (32 + k) >>> 2 ≠ n := by intro n hn; omega
    simp [scif_write, sci_write, A_SMR, A_BRR, A_SCR, A_TDR, A_SSR, A_RDR, A_SCMR, A_SEMR,
      h 0, h 1, h 2, h 3, h 4, h 5, h 6, h 7]
  · simp [sci_write, A_RDR, A_SMR, A_BRR]
  · simp [scif_write, sci_write, A_RDR, A_SMR, A_BRR, A_SCR, A_TDR, A_SSR]

/-- C10: the receive gate answers non-zero exactly when receive-enable is set
and the current time has reached rx_next; the answer is then 1, and it is 0 in
every other case. -/
theorem can_receive_gate (sci : RSCIState) (now : Int) :
    (can_receive sci now ≠ 0 ↔ (FIELD_EX8 sci.scr SCR_RE = 1 ∧ now ≥ sci.rx_next))
    ∧ ((FIELD_EX8 sci.scr SCR_RE = 1 ∧ now ≥ sci.rx_next) → can_receive sci now = 1)
    ∧ (¬ (FIELD_EX8 sci.scr SCR_RE = 1 ∧ now ≥ sci.rx_next) → can_receive sci now = 0) := by
  unfold can_receive FIELD_EX8 extract32 SCR_RE
  refine ⟨?_, ?_, ?_⟩ <;> split <;> simp <;> omega

/-- C11: in the narrow variant a write to the control register (offset 2) or
to the transmit-data register (offset 3) reaches no case of sci_write: the
state comes back as it was, so a read returns the old value and not the
written one.  After a reset, writing 0x30 (transmit-enable and receive-enable)
to offset 2 changes nothing: the control register still reads 0, the
controller is still not enabled for mode/baud gating, the receive gate still
answers 0, and the transmit-data register still reads 0xff. -/
theorem narrow_control_write_ignored (sci : RSCIState) (now : Int) (v size : Nat) :
    sci_write sci A_SCR v size = some sci
    ∧ sci_write sci A_TDR v size = some sci
    ∧ (sci_read sci A_SCR size).1 = sci.scr
    ∧ (sci_read sci A_TDR size).1 = sci.tdr
    ∧ sci_write (rsci_reset sci now) A_SCR 0x30 size = some (rsci_reset sci now)
    ∧ (sci_read (rsci_reset sci now) A_SCR size).1 = 0
    ∧ (sci_read (rsci_reset sci now) A_TDR size).1 = 0xff
    ∧ sci_is_tr_enabled (rsci_reset sci now) = false
    ∧ can_receive (rsci_reset sci now) now = 0 := by
  refine ⟨by simp [sci_write, A_SCR, A_SMR, A_BRR, A_RDR, A_SCMR, A_SEMR],
    by simp [sci_write, A_TDR, A_SMR, A_BRR, A_RDR, A_SCMR, A_SEMR],
    by simp [sci_read, A_SCR, A_SMR, A_BRR],
    by simp [sci_read, A_TDR, A_SCR, A_SMR, A_BRR],
    by simp [sci_write, A_SCR, A_SMR, A_BRR, A_RDR, A_SCMR, A_SEMR],
    by simp [sci_read, A_SCR, A_SMR, A_BRR, rsci_reset],
    by simp [sci_read, A_TDR, A_SCR, A_SMR, A_BRR, rsci_reset],
    by simp [sci_is_tr_enabled, rsci_reset, FIELD_EX8, extract32],
    by simp [can_receive, rsci_reset, FIELD_EX8, extract32]⟩

/-- C12: a write to the status register never changes the stored status, in
either variant, whatever value is written: no error flag is cleared.  In the
word-addressed variant a status write that directly follows a status read
changes nothing at all, the error line included.  In `break_then_ack` the
break sets framing-error and raises the error line; after the status read and
the write of zero, framing-error is still set and the error line is still
raised. -/
theorem status_write_keeps_flags (sci : RSCIState) (now : Int) (val size : Nat) :
    (scif_write sci now (4 * A_SSR) val size).map (fun s => s.ssr) = some sci.ssr
    ∧ scif_write (scif_read sci (4 * A_SSR) size).2 now (4 * A_SSR) val size
        = some (scif_read sci (4 * A_SSR) size).2
    ∧ sci_write sci A_SSR val size = some sci
    ∧ break_then_ack.map (fun s => (FIELD_EX16 s.ssr SCFSR_FER, s.eri)) = some (1, true) := by
  refine ⟨?_, ?_, ?_, ?_⟩
  · unfold scif_write
    by_cases h : FIELD_EX8 sci.read_ssr SCFSR_ER ≠ 0 ∧ FIELD_EX8 sci.ssr SCFSR_ER = 0 <;>
      simp [A_SSR, A_SCR, A_TDR, h, qemu_set_irq]
  · have hr : (scif_read sci (4 * A_SSR) size).2 = { sci with read_ssr := sci.ssr } := by
      simp [scif_read, sci_read, A_SSR, A_RDR, A_SCFDR, A_SMR, A_BRR, A_SCR, A_TDR]
    rw [hr]
    unfold scif_write
    simp [A_SSR, A_SCR, A_TDR]
  · simp [sci_write, A_SSR, A_SMR, A_BRR, A_RDR, A_SCMR, A_SEMR]
  · set_option maxRecDepth 100000 in decide

theorem char_cycles_ge (mode divisor : Nat) (hd : 1 ≤ divisor) :
    256 ≤ char_cycles mode divisor := by
  have h1 := bits_per_char_ge mode
  have h2 : 1 ≤ 2 ^ (2 * clock_select mode) := Nat.one_le_two_pow
  have h3 : 8 * 32 * 1 * 1 ≤ char_cycles mode divisor :=
    Nat.mul_le_mul (Nat.mul_le_mul (Nat.mul_le_mul h1 le_rfl) hd) h2
  omega

theorem char_time_spec_mono (m1 m2 d1 d2 freq : Nat)
    (hsel : clock_select m1 = clock_select m2)
    (hbits : bits_per_char m1 ≤ bits_per_char m2) (hd : d1 ≤ d2) :
    char_time_spec m1 d1 freq ≤ char_time_spec m2 d2 freq := by
  unfold char_time_spec char_cycles
  rw [hsel]
  exact Nat.div_le_div_right
    (Nat.mul_le_mul (Nat.mul_le_mul (Nat.mul_le_mul (Nat.mul_le_mul hbits le_rfl) hd) le_rfl)
      le_rfl)

/-- C13 as stated fails: with divisor 1, mode 0 (9 bits per character,
clock-select 0) and an input clock of 10^12 Hz, which is non-zero, the
accepted mode write leaves a character time of 0. -/
theorem char_time_zero_at_high_clock :
    1 ≤ ({ demo with brr := 1, input_freq := 1000000000000 } : RSCIState).brr
    ∧ ({ demo with brr := 1, input_freq := 1000000000000 } : RSCIState).input_freq ≠ 0
    ∧ (sci_write { demo with brr := 1, input_freq := 1000000000000 } A_SMR 0 1).map
        (fun s => s.trtime) = some 0 := by
  set_option maxRecDepth 100000 in decide

/-- C13, amended: for every mode value, every 16-bit divisor >= 1 and every
non-zero input clock the timing model returns a character time that is never
negative, and that is strictly positive exactly when the input clock is at
most bits_per_char * 32 * divisor * 2^(2*clock_select) * 10^9 Hz; in
particular it is strictly positive for every input clock up to
256,000,000,000 Hz. -/
theorem char_time_positive (sci : RSCIState) (hf : sci.input_freq ≠ 0)
    (hd1 : 1 ≤ sci.brr) (hd : sci.brr < 2 ^ 16) :
    ∃ s', update_trtime sci = some s'
      ∧ 0 ≤ s'.trtime
      ∧ (0 < s'.trtime ↔
          sci.input_freq
            ≤ bits_per_char sci.smr * 32 * sci.brr * 2 ^ (2 * clock_select sci.smr) * 10 ^ 9)
      ∧ (sci.input_freq ≤ 256000000000 → 0 < s'.trtime) := by
  have hge := char_cycles_ge sci.smr sci.brr hd1
  have hiff : 0 < char_time_spec sci.smr sci.brr sci.input_freq ↔
      sci.input_freq ≤ char_cycles sci.smr sci.brr * 10 ^ 9 := by
    unfold char_time_spec
    exact Nat.div_pos_iff hf
  refine ⟨_, update_trtime_spec sci hf hd, ?_, ?_, ?_⟩
  · exact Int.natCast_nonneg _
  · show (0 : Int) < ((char_time_spec sci.smr sci.brr sci.input_freq : Nat) : Int) ↔ _
    rw [Int.natCast_pos]
    exact hiff
  · intro hle
    show (0 : Int) < ((char_time_spec sci.smr sci.brr sci.input_freq : Nat) : Int)
    rw [Int.natCast_pos]
    apply hiff.mpr
    omega

/-- C13 amended, tried on the demo clock of 64 MHz with divisor 1. -/
theorem char_time_positive_witness :
    ∃ s', update_trtime { demo with brr := 1 } = some s' ∧ 0 < s'.trtime := by
  obtain ⟨s', h1, _, _, h4⟩ :=
    char_time_positive { demo with brr := 1 } (by decide) (by decide) (by decide)
  exact ⟨s', h1, h4 (by decide)⟩

/-- C14: for a fixed non-zero input clock, the character time the timing model
returns is non-decreasing in the divisor (same mode, 16-bit divisors d1 <= d2)
and, at a fixed clock-select and divisor, non-decreasing in the
bits-per-character count of the mode. -/
theorem char_time_monotone (sci : RSCIState) (hf : sci.input_freq ≠ 0) :
    (∀ mode d1 d2 : Nat, d1 ≤ d2 → d2 < 2 ^ 16 →
      ∃ s1 s2, update_trtime { sci with smr := mode, brr := d1 } = some s1
        ∧ update_trtime { sci with smr := mode, brr := d2 } = some s2
        ∧ s1.trtime ≤ s2.trtime)
    ∧ (∀ m1 m2 d : Nat, d < 2 ^ 16 → clock_select m1 = clock_select m2 →
      bits_per_char m1 ≤ bits_per_char m2 →
      ∃ s1 s2, update_trtime { sci with smr := m1, brr := d } = some s1
        ∧ update_trtime { sci with smr := m2, brr := d } = some s2
        ∧ s1.trtime ≤ s2.trtime) := by
  constructor
  · intro mode d1 d2 h12 h2
    have h1 : d1 < 2 ^ 16 := lt_of_le_of_lt h12 h2
    refine ⟨_, _, update_trtime_spec { sci with smr := mode, brr := d1 } hf h1,
      update_trtime_spec { sci with smr := mode, brr := d2 } hf h2, ?_⟩
    exact Int.ofNat_le.mpr (char_time_spec_mono mode mode d1 d2 sci.input_freq rfl le_rfl h12)
  · intro m1 m2 d hd hsel hbits
    refine ⟨_, _, update_trtime_spec { sci with smr := m1, brr := d } hf hd,
      update_trtime_spec { sci with smr := m2, brr := d } hf hd, ?_⟩
    exact Int.ofNat_le.mpr (char_time_spec_mono m1 m2 d d sci.input_freq hsel hbits le_rfl)

/-- C14, tried on the demo clock: divisor 1 against divisor 2 at mode 0x08. -/
theorem char_time_monotone_witness :
    ∃ s1 s2, update_trtime { demo with smr := 8, brr := 1 } = some s1
      ∧ update_trtime { demo with smr := 8, brr := 2 } = some s2
      ∧ s1.trtime ≤ s2.trtime :=
  (char_time_monotone demo (by decide)).1 8 1 2 (by decide) (by decide)

/-- C15: rsci_realize never reports an error to its caller, whatever the input
clock: the error object is left as the caller passed it.  With a zero input
clock it logs a diagnostic and returns without installing the receive
handlers; the handlers are installed exactly when the clock is non-zero. -/
theorem realize_reports_no_error (sci : RSCIState) :
    (rsci_realize sci none).errp = none
    ∧ ((rsci_realize sci none).handlers_installed = true ↔ sci.input_freq ≠ 0)
    ∧ rsci_realize { sci with input_freq := 0 } none
        = { errp := none, handlers_installed := false, logged := true } := by
  refine ⟨?_, ?_, ?_⟩
  · unfold rsci_realize; split <;> rfl
  · unfold rsci_realize; split <;> simp_all
  · simp [rsci_realize]

theorem field_dr_set_plus_one (ssr : Nat) (h16 : ssr < 2 ^ 16)
    (hdr : FIELD_EX16 ssr SCFSR_DR = 0) : FIELD_DP16 ssr SCFSR_DR 1 = ssr + 1 := by
  simp [FIELD_EX16, FIELD_DP16, extract32, deposit32, SCFSR_DR] at hdr ⊢
  omega

/-- C16: a receive event at time `now` that carries exactly one byte b while
data-ready is clear (with now + char_time_ns representable) gives the state
in which the receive-data register is b, data-ready (bit 0 of the status) is
set and every other status bit is as before, rx_next is now + char_time_ns,
the receive line has been pulsed exactly when receive-interrupt-enable is set,
and everything else, the error line included, is as it was. -/
theorem single_byte_receive (sci : RSCIState) (now : Int) (b : Nat)
    (hb : b < 2 ^ 8) (hssr : sci.ssr < 2 ^ 16)
    (hdr : FIELD_EX16 sci.ssr SCFSR_DR = 0)
    (hlo : -2 ^ 63 ≤ now + sci.trtime) (hhi : now + sci.trtime < 2 ^ 63) :
    receive sci now [b] 1 =
      { sci with
        rx_next := now + sci.trtime,
        rdr := b,
        ssr := sci.ssr + 1,
        rxi := if FIELD_EX8 sci.scr SCR_RIE ≠ 0 then false else sci.rxi,
        effects := sci.effects
          ++ (if FIELD_EX8 sci.scr SCR_RIE ≠ 0
              then [Effect.set_irq Irq.RXI true, Effect.set_irq Irq.RXI false] else []) }
    ∧ FIELD_EX16 (receive sci now [b] 1).ssr SCFSR_DR = 1
    ∧ (receive sci now [b] 1).ssr / 2 = sci.ssr / 2
    ∧ (receive sci now [b] 1).eri = sci.eri
    ∧ (∀ level, Effect.set_irq Irq.ERI level ∈ (receive sci now [b] 1).effects →
        Effect.set_irq Irq.ERI level ∈ sci.effects) := by
  have e := receive_store_eq sci now [b] 1 hdr le_rfl
  rw [wrap_int64_of_range hlo hhi, field_dr_set_plus_one sci.ssr hssr hdr] at e
  have hbm : [b].getD 0 0 % 2 ^ 8 = b := by
    simp
    omega
  rw [hbm] at e
  refine ⟨e, ?_, ?_, ?_, ?_⟩
  · rw [e, ← field_dr_set_plus_one sci.ssr hssr hdr]
    exact field_dr_after_set _
  · rw [e]
    simp only [FIELD_EX16, extract32, SCFSR_DR] at hdr
    show (sci.ssr + 1) / 2 = sci.ssr / 2
    omega
  · rw [e]
  · intro level
    rw [e]
    by_cases h : FIELD_EX8 sci.scr SCR_RIE = 0 <;> simp [h]

/-- C16, tried on the demo state with receive-interrupt-enable set. -/
theorem single_byte_receive_witness :
    (receive { demo with scr := 0x50 } 7 [0x41] 1).rdr = 0x41
    ∧ (receive { demo with scr := 0x50 } 7 [0x41] 1).effects
        = [Effect.set_irq Irq.RXI true, Effect.set_irq Irq.RXI false] := by
  have h := (single_byte_receive { demo with scr := 0x50 } 7 0x41 (by decide) (by decide)
    (by decide) (by decide) (by decide)).1
  rw [h]
  decide

/-- What sci_send_byte does, in closed form. -/
theorem sci_send_byte_eq (sci : RSCIState) (now : Int) :
    sci_send_byte sci now =
      { sci with
        ssr := FIELD_DP8 (FIELD_DP8 sci.ssr SSR_TEND 0) SSR_TDRE 1,
        timer := some (wrap_int64 (now + sci.trtime)),
        tei := false,
        txi := if FIELD_EX8 sci.scr SCR_TIE ≠ 0 then false else sci.txi,
        effects := sci.effects
          ++ (if sci.chr_connected then [Effect.chr_write sci.tdr] else [])
          ++ [Effect.timer_mod (wrap_int64 (now + sci.trtime)), Effect.set_irq Irq.TEI false]
          ++ (if FIELD_EX8 sci.scr SCR_TIE ≠ 0
              then [Effect.set_irq Irq.TXI true, Effect.set_irq Irq.TXI false] else []) } := by
  unfold sci_send_byte
  by_cases hc : sci.chr_connected = true <;>
    by_cases ht : FIELD_EX8 sci.scr SCR_TIE = 0 <;>
    simp [hc, ht, timer_mod, qemu_chr_fe_write_all, qemu_set_irq, qemu_irq_pulse]

/-- What sci_txend does when no byte is queued, in closed form. -/
theorem sci_txend_idle_eq (sci : RSCIState) (now : Int)
    (h : FIELD_EX8 sci.ssr SSR_TDRE ≠ 0) :
    sci_txend sci now =
      { sci with
        ssr := FIELD_DP8 sci.ssr SSR_TEND 1,
        tei := if FIELD_EX8 sci.scr SCR_TEIE ≠ 0 then true else sci.tei,
        effects := sci.effects
          ++ (if FIELD_EX8 sci.scr SCR_TEIE ≠ 0 then [Effect.set_irq Irq.TEI true] else []) } := by
  unfold sci_txend
  by_cases ht : FIELD_EX8 sci.scr SCR_TEIE = 0 <;> simp [h, ht, qemu_set_irq]

theorem field_ssr_tend_after_send (ssr : Nat) :
    FIELD_EX8 (FIELD_DP8 (FIELD_DP8 ssr SSR_TEND 0) SSR_TDRE 1) SSR_TEND = 0
    ∧ FIELD_EX8 (FIELD_DP8 (FIELD_DP8 ssr SSR_TEND 0) SSR_TDRE 1) SSR_TDRE = 1 := by
  simp [FIELD_EX8, FIELD_DP8, extract32, deposit32, SSR_TEND, SSR_TDRE]; omega

theorem field_ssr_tend_after_set (ssr : Nat) :
    FIELD_EX8 (FIELD_DP8 ssr SSR_TEND 1) SSR_TEND = 1 := by
  simp [FIELD_EX8, FIELD_DP8, extract32, deposit32, SSR_TEND]; omega

theorem field_tdfe_after_clear (ssr : Nat) :
    FIELD_EX16 (FIELD_DP8 ssr SCFSR_TDFE 0) SCFSR_TDFE = 0
    ∧ FIELD_EX16 (FIELD_DP8 ssr SCFSR_TDFE 0) SCFSR_TEND = FIELD_EX8 ssr SCFSR_TEND
    ∧ FIELD_DP8 ssr SCFSR_TDFE 0 % 2 ^ 5 = ssr % 2 ^ 5
    ∧ FIELD_DP8 ssr SCFSR_TDFE 0 / 2 ^ 6 = ssr % 2 ^ 8 / 2 ^ 6 := by
  simp [FIELD_EX16, FIELD_EX8, FIELD_DP8, extract32, deposit32, SCFSR_TDFE, SCFSR_TEND]; omega

/-- A transmit-data write of the word-addressed variant while a byte is in
flight, in closed form. -/
theorem scif_write_tdr_busy_eq (sci : RSCIState) (now : Int) (offset v size : Nat)
    (hoff : offset >>> 2 = A_TDR) (hbusy : FIELD_EX8 sci.ssr SCFSR_TEND = 0) :
    scif_write sci now offset v size
      = some { sci with tdr := v % 2 ^ 8, ssr := FIELD_DP8 sci.ssr SCFSR_TDFE 0 } := by
  unfold scif_write
  simp [hoff, A_TDR, A_SCR, hbusy]

theorem scif_timer_expire_due (sci : RSCIState) (now d : Int)
    (ht : sci.timer = some d) (hd : d ≤ now) :
    scif_timer_expire sci now = scif_txend { sci with timer := none } now := by
  unfold scif_timer_expire
  rw [ht]
  simp [hd]

theorem sci_timer_expire_due (sci : RSCIState) (now d : Int)
    (ht : sci.timer = some d) (hd : d ≤ now) :
    sci_timer_expire sci now = sci_txend { sci with timer := none } now := by
  unfold sci_timer_expire
  rw [ht]
  simp [hd]

theorem scif_timer_expire_send (sf : RSCIState) (now d : Int)
    (ht : sf.timer = some d) (hd : d ≤ now) (hq : FIELD_EX16 sf.ssr SCFSR_TDFE = 0) :
    scif_timer_expire sf now = scif_send_byte { sf with timer := none } now := by
  have hq' : FIELD_EX16 ({ sf with timer := none } : RSCIState).ssr SCFSR_TDFE = 0 := hq
  rw [scif_timer_expire_due sf now d ht hd]
  unfold scif_txend
  rw [if_pos hq']

theorem sci_timer_expire_send (sf : RSCIState) (now d : Int)
    (ht : sf.timer = some d) (hd : d ≤ now) (hq : FIELD_EX8 sf.ssr SSR_TDRE = 0) :
    sci_timer_expire sf now = sci_send_byte { sf with timer := none } now := by
  have hq' : FIELD_EX8 ({ sf with timer := none } : RSCIState).ssr SSR_TDRE = 0 := hq
  rw [sci_timer_expire_due sf now d ht hd]
  unfold sci_txend
  rw [if_pos hq']

/-- C17: in the word-addressed variant, writing the byte v to the
transmit-data register (index 3) while a byte is in flight (transmit-end
clear) records v and clears transmit-empty, and nothing else: the other
status flags, the timer and the history of effects are as before.  When the
pending timer then fires at time t (with t + char_time_ns representable), the
empty flag being still clear, v is handed to a connected backend, the timer is
re-armed at t + char_time_ns and transmit-end stays clear.  When a timer fires
with the empty flag set, transmit-end becomes set and the transmit-end line
is raised if the transmit-end-interrupt-enable bit that the timer callback
reads (bit 11 of the control register) is set, and no line changes otherwise.
The timer callback of the narrow variant does the same in its own layout
(TDRE, TEND and bit 2 of the control register). -/
theorem transmit_while_in_flight (sci : RSCIState) (now t : Int) (offset v size : Nat)
    (hv : v < 2 ^ 8) (hoff : offset >>> 2 = A_TDR)
    (hbusy : FIELD_EX8 sci.ssr SCFSR_TEND = 0) :
    ∃ s1, scif_write sci now offset v size = some s1
      ∧ s1 = { sci with tdr := v, ssr := FIELD_DP8 sci.ssr SCFSR_TDFE 0 }
      ∧ FIELD_EX16 s1.ssr SCFSR_TDFE = 0
      ∧ s1.ssr % 2 ^ 5 = sci.ssr % 2 ^ 5
      ∧ s1.ssr / 2 ^ 6 = sci.ssr % 2 ^ 8 / 2 ^ 6
      ∧ s1.effects = sci.effects
      ∧ s1.timer = sci.timer
      ∧ (∀ d, sci.timer = some d → d ≤ t →
          -2 ^ 63 ≤ t + sci.trtime → t + sci.trtime < 2 ^ 63 →
          (scif_timer_expire s1 t).effects = sci.effects
              ++ (if sci.chr_connected then [Effect.chr_write v] else [])
              ++ [Effect.timer_mod (t + sci.trtime), Effect.set_irq Irq.TEI false]
              ++ (if FIELD_EX8 sci.scr SCR_TIE ≠ 0
                  then [Effect.set_irq Irq.TXI true, Effect.set_irq Irq.TXI false] else [])
          ∧ (scif_timer_expire s1 t).timer = some (t + sci.trtime)
          ∧ FIELD_EX16 (scif_timer_expire s1 t).ssr SCFSR_TEND = 0)
      ∧ (∀ (sf : RSCIState) (d : Int), sf.timer = some d → d ≤ t →
          FIELD_EX16 sf.ssr SCFSR_TDFE ≠ 0 →
          FIELD_EX16 (scif_timer_expire sf t).ssr SCFSR_TEND = 1
          ∧ (FIELD_EX16 sf.scr SCSCR_TEIE ≠ 0 →
              (scif_timer_expire sf t).tei = true
              ∧ (scif_timer_expire sf t).effects = sf.effects ++ [Effect.set_irq Irq.TEI true])
          ∧ (FIELD_EX16 sf.scr SCSCR_TEIE = 0 →
              (scif_timer_expire sf t).tei = sf.tei
              ∧ (scif_timer_expire sf t).effects = sf.effects))
      ∧ (∀ (sf : RSCIState) (d : Int), sf.timer = some d → d ≤ t →
          FIELD_EX8 sf.ssr SSR_TDRE = 0 →
          -2 ^ 63 ≤ t + sf.trtime → t + sf.trtime < 2 ^ 63 →
          (sci_timer_expire sf t).effects = sf.effects
              ++ (if sf.chr_connected then [Effect.chr_write sf.tdr] else [])
              ++ [Effect.timer_mod (t + sf.trtime), Effect.set_irq Irq.TEI false]
              ++ (if FIELD_EX8 sf.scr SCR_TIE ≠ 0
                  then [Effect.set_irq Irq.TXI true, Effect.set_irq Irq.TXI false] else [])
          ∧ (sci_timer_expire sf t).timer = some (t + sf.trtime)
          ∧ FIELD_EX8 (sci_timer_expire sf t).ssr SSR_TEND = 0)
      ∧ (∀ (sf : RSCIState) (d : Int), sf.timer = some d → d ≤ t →
          FIELD_EX8 sf.ssr SSR_TDRE ≠ 0 →
          FIELD_EX8 (sci_timer_expire sf t).ssr SSR_TEND = 1
          ∧ (FIELD_EX8 sf.scr SCR_TEIE ≠ 0 → (sci_timer_expire sf t).tei = true)
          ∧ (FIELD_EX8 sf.scr SCR_TEIE = 0 →
              (sci_timer_expire sf t).tei = sf.tei
              ∧ (sci_timer_expire sf t).effects = sf.effects)) := by
  have hvm : v % 2 ^ 8 = v := Nat.mod_eq_of_lt hv
  have hw := scif_write_tdr_busy_eq sci now offset v size hoff hbusy
  rw [hvm] at hw
  have hfl := field_tdfe_after_clear sci.ssr
  refine ⟨_, hw, rfl, hfl.1, hfl.2.2.1, hfl.2.2.2, rfl, rfl, ?_, ?_, ?_, ?_⟩
  · intro d hd hdt hlo hhi
    have hx := scif_timer_expire_send
      { sci with tdr := v, ssr := FIELD_DP8 sci.ssr SCFSR_TDFE 0 } t d hd hdt hfl.1
    rw [hx, scif_send_byte_eq]
    simp only [wrap_int64_of_range hlo hhi]
    exact ⟨trivial, trivial, (field_tend_tdfe_after_send _).1⟩
  · intro sf d hd hdt hq
    have hq' : FIELD_EX16 ({ sf with timer := none } : RSCIState).ssr SCFSR_TDFE ≠ 0 := hq
    rw [scif_timer_expire_due sf t d hd hdt, scif_txend_idle_eq _ t hq']
    refine ⟨field_tend_after_set _, ?_, ?_⟩
    · intro h
      simp [h]
    · intro h
      simp [h]
  · intro sf d hd hdt hq hlo hhi
    rw [sci_timer_expire_send sf t d hd hdt hq, sci_send_byte_eq]
    simp only [wrap_int64_of_range hlo hhi]
    exact ⟨trivial, trivial, (field_ssr_tend_after_send _).1⟩
  · intro sf d hd hdt hq
    have hq' : FIELD_EX8 ({ sf with timer := none } : RSCIState).ssr SSR_TDRE ≠ 0 := hq
    rw [sci_timer_expire_due sf t d hd hdt, sci_txend_idle_eq _ t hq']
    refine ⟨field_ssr_tend_after_set _, ?_, ?_⟩
    · intro h
      simp [h]
    · intro h
      simp [h]

/-- C17, tried on a transmitter of the word-addressed variant with a byte in
flight: status 0x20 (transmit-empty set, transmit-end clear), the timer
pending at 5000 and a character time of 5000 ns. -/
theorem transmit_while_in_flight_witness :
    ∃ s1, scif_write { demo with ssr := 0x20, timer := some 5000, trtime := 5000 } 100 12 0x42 2
        = some s1
      ∧ (scif_timer_expire s1 5000).timer = some (5000 + 5000) := by
  obtain ⟨s1, h1, _, _, _, _, _, _, h8, _⟩ :=
    transmit_while_in_flight { demo with ssr := 0x20, timer := some 5000, trtime := 5000 }
      100 5000 12 0x42 2 (by decide) (by decide) (by decide)
  exact ⟨s1, h1, (h8 5000 rfl (by decide) (by decide) (by decide)).2.1⟩

/-- The level of the transmit-end line after a control write of the
word-addressed variant: lowered when bit 2 of the written value is clear, left
as it was otherwise; bit 11 plays no part. -/
theorem scif_write_scr_tei (sci : RSCIState) (now : Int) (val size : Nat) :
    (scif_write sci now (4 * A_SCR) val size).map (fun s => s.tei)
      = some (if FIELD_EX8 (val % 2 ^ 16) SCR_TEIE = 0 then false else sci.tei) := by
  unfold scif_write
  generalize val % 2 ^ 16 = w
  by_cases h1 : FIELD_EX8 w SCR_TE = 0 <;>
    by_cases h2 : FIELD_EX8 w SCR_TIE = 0 <;>
    by_cases h3 : FIELD_EX8 w SCR_TEIE = 0 <;>
    by_cases h4 : FIELD_EX8 w SCR_RIE = 0 <;>
    simp [A_SCR, h1, h2, h3, h4, qemu_set_irq, qemu_irq_pulse]

/-- C18: in the word-addressed variant the timer callback raises the
transmit-end line on bit 11 of the control register, but a control write
lowers the line only when bit 2 of the written value is clear.  In
`tei_after_enable_cleared`, a run from reset, the last control write clears
bit 11 and the line is still raised afterwards: the run ends with the
transmit-end line asserted, transmit-end set and the enable bit that gates
the assertion clear. -/
theorem transmit_end_line_stays_raised (sci : RSCIState) (now : Int) (val size : Nat) :
    (scif_write sci now (4 * A_SCR) val size).map (fun s => s.tei)
      = some (if FIELD_EX8 (val % 2 ^ 16) SCR_TEIE = 0 then false else sci.tei)
    ∧ tei_after_enable_cleared.map
        (fun s => (s.tei, FIELD_EX16 s.scr SCSCR_TEIE, FIELD_EX16 s.ssr SCFSR_TEND))
        = some (true, 0, 1) := by
  refine ⟨scif_write_scr_tei sci now val size, ?_⟩
  set_option maxRecDepth 100000 in decide

theorem field_fer_after_break (ssr : Nat) :
    FIELD_EX16 (FIELD_DP8 ssr SCFSR_FER 1) SCFSR_FER = 1
    ∧ FIELD_EX8 (FIELD_DP8 ssr SCFSR_FER 1) SSR_PER = 1
    ∧ FIELD_EX8 (FIELD_DP8 ssr SCFSR_FER 1) SSR_FER = FIELD_EX8 ssr SSR_FER
    ∧ FIELD_DP8 ssr SCFSR_FER 1 % 2 ^ 3 = ssr % 2 ^ 3
    ∧ FIELD_DP8 ssr SCFSR_FER 1 / 2 ^ 4 = ssr % 2 ^ 8 / 2 ^ 4 := by
  simp [FIELD_EX16, FIELD_EX8, FIELD_DP8, extract32, deposit32, SCFSR_FER, SSR_PER, SSR_FER]
  omega

/-- What sci_event does on a break, in closed form. -/
theorem sci_event_break_eq (sci : RSCIState) :
    sci_event sci QEMUChrEvent.CHR_EVENT_BREAK =
      { sci with
        ssr := FIELD_DP8 sci.ssr SCFSR_FER 1,
        eri := if FIELD_EX8 sci.scr SCR_RIE ≠ 0 then true else sci.eri,
        effects := sci.effects
          ++ (if FIELD_EX8 sci.scr SCR_RIE ≠ 0 then [Effect.set_irq Irq.ERI true] else []) } := by
  unfold sci_event
  by_cases h : FIELD_EX8 sci.scr SCR_RIE = 0 <;> simp [h, qemu_set_irq]

/-- C19: a break event deposits 1 at bit 3 of the status, for both variants,
without looking at receive-enable or rx_next, raises the error line exactly
when receive-interrupt-enable is set, and leaves the other seven flag bits as
they were; every other transport event leaves the state as it was.  Bit 3 is
framing-error in the word-addressed layout.  In the narrow layout bit 3 is
parity-error and framing-error is bit 4: there the break sets the
parity-error flag and leaves the framing-error flag as it was (clear after a
reset). -/
theorem break_event_sets_bit_three (sci : RSCIState) (now : Int) :
    sci_event sci QEMUChrEvent.CHR_EVENT_BREAK =
      { sci with
        ssr := FIELD_DP8 sci.ssr SCFSR_FER 1,
        eri := if FIELD_EX8 sci.scr SCR_RIE ≠ 0 then true else sci.eri,
        effects := sci.effects
          ++ (if FIELD_EX8 sci.scr SCR_RIE ≠ 0 then [Effect.set_irq Irq.ERI true] else []) }
    ∧ FIELD_EX16 (sci_event sci QEMUChrEvent.CHR_EVENT_BREAK).ssr SCFSR_FER = 1
    ∧ (sci_event sci QEMUChrEvent.CHR_EVENT_BREAK).ssr % 2 ^ 3 = sci.ssr % 2 ^ 3
    ∧ (sci_event sci QEMUChrEvent.CHR_EVENT_BREAK).ssr / 2 ^ 4 = sci.ssr % 2 ^ 8 / 2 ^ 4
    ∧ FIELD_EX8 (sci_event sci QEMUChrEvent.CHR_EVENT_BREAK).ssr SSR_PER = 1
    ∧ FIELD_EX8 (sci_event sci QEMUChrEvent.CHR_EVENT_BREAK).ssr SSR_FER
        = FIELD_EX8 sci.ssr SSR_FER
    ∧ FIELD_EX8 (sci_event (rsci_reset sci now) QEMUChrEvent.CHR_EVENT_BREAK).ssr SSR_FER = 0
    ∧ sci_event sci QEMUChrEvent.CHR_EVENT_OPENED = sci
    ∧ sci_event sci QEMUChrEvent.CHR_EVENT_MUX_IN = sci
    ∧ sci_event sci QEMUChrEvent.CHR_EVENT_MUX_OUT = sci
    ∧ sci_event sci QEMUChrEvent.CHR_EVENT_CLOSED = sci := by
  have e := sci_event_break_eq sci
  have f := field_fer_after_break sci.ssr
  refine ⟨e, ?_, ?_, ?_, ?_, ?_, ?_, rfl, rfl, rfl, rfl⟩
  · rw [e]; exact f.1
  · rw [e]; exact f.2.2.2.1
  · rw [e]; exact f.2.2.2.2
  · rw [e]; exact f.2.1
  · rw [e]; exact f.2.2.1
  · rw [sci_event_break_eq]
    have hr : (rsci_reset sci now).ssr = 0x84 := rfl
    show FIELD_EX8 (FIELD_DP8 (rsci_reset sci now).ssr SCFSR_FER 1) SSR_FER = 0
    rw [hr]
    decide

/-- C20: a delivery of more than one byte into an empty holding register sets
data-ready without storing a byte.  Whatever the state, once data-ready is
cleared a receive event with a buffer of two or more bytes leaves data-ready
set, the receive-data register as it was and the FIFO data count reading 1;
on the demo state the bytes 0x41 0x42 leave the receive-data register at 0,
not at 0x41. -/
theorem burst_sets_data_ready (sci : RSCIState) (now : Int) (b0 b1 : Nat)
    (rest : List Nat) (size : Nat) :
    FIELD_EX16 ({ sci with ssr := FIELD_DP16 sci.ssr SCFSR_DR 0 } : RSCIState).ssr SCFSR_DR = 0
    ∧ FIELD_EX16 (receive { sci with ssr := FIELD_DP16 sci.ssr SCFSR_DR 0 } now
        (b0 :: b1 :: rest) ((b0 :: b1 :: rest).length : Nat)).ssr SCFSR_DR = 1
    ∧ (receive { sci with ssr := FIELD_DP16 sci.ssr SCFSR_DR 0 } now
        (b0 :: b1 :: rest) ((b0 :: b1 :: rest).length : Nat)).rdr = sci.rdr
    ∧ (scif_read (receive { sci with ssr := FIELD_DP16 sci.ssr SCFSR_DR 0 } now
        (b0 :: b1 :: rest) ((b0 :: b1 :: rest).length : Nat)) (4 * A_SCFDR) size).1 = 1
    ∧ FIELD_EX16 demo.ssr SCFSR_DR = 0
    ∧ FIELD_EX16 (receive demo 0 [0x41, 0x42] 2).ssr SCFSR_DR = 1
    ∧ (receive demo 0 [0x41, 0x42] 2).rdr = 0
    ∧ (scif_read (receive demo 0 [0x41, 0x42] 2) 28 2).1 = 1 := by
  have hsize : (((b0 :: b1 :: rest).length : Nat) : Int) > 1 := by
    simp only [List.length_cons]
    omega
  have e := receive_overrun_eq { sci with ssr := FIELD_DP16 sci.ssr SCFSR_DR 0 } now
    (b0 :: b1 :: rest) ((b0 :: b1 :: rest).length : Nat) (Or.inr hsize)
  have hset : FIELD_EX16 (FIELD_DP16 (FIELD_DP16 sci.ssr SCFSR_DR 0) SCLSR_ORER 1) SCFSR_DR
      = 1 := by
    simp [FIELD_EX16, FIELD_DP16, extract32, deposit32, SCFSR_DR, SCLSR_ORER]
    omega
  refine ⟨field_dr_after_clear _, ?_, ?_, ?_, by decide, by decide, by decide, by decide⟩
  · rw [e]; exact hset
  · rw [e]
  · rw [scif_read_scfdr _ _ _ (by decide), e]
    show (if FIELD_EX16 (FIELD_DP16 (FIELD_DP16 sci.ssr SCFSR_DR 0) SCLSR_ORER 1) SCFSR_DR ≠ 0
      then 1 else 0) = 1
    rw [hset]
    rfl

end RenesasSCI
